import Mathlib

/-!
# Verification of Regina's compact census searcher (`NCompactSearcher`)

A shallow embedding of the census search engine found in
`src/engine/census/compact.cpp` (class `NCompactSearcher`), together with the
chain-collapsing searcher of `src/engine/census/collapsechain.cpp` and the
serialisation routines.  C++ integers (`int`, `long`, `unsigned long`, `char`)
are modelled uniformly as `Int`; all arithmetic performed by the code on
reachable states stays far inside the machine-word range, where `Int`
arithmetic and C++ arithmetic coincide.  Two-element C arrays indexed by the
bits `0`/`1` are modelled as functions `Bool → _` (with `false` standing for
index `0`), so that the pervasive C++ index arithmetic `1 ^ end`, `e ^ twist`
becomes `!e` and `Bool.xor`.  C++ while-loops that chase pointers are given an
explicit fuel argument; theorems about them carry the (decidable) hypothesis
that the chase reached its target, which holds on every state the searcher
actually builds.
-/

set_option autoImplicit false

namespace Regina

/-- A tetrahedron facet, as in Regina's `NTetFace`: a tetrahedron index and a
facet number 0..3.  The boundary sentinel is `tet = nTets`. -/
structure TetFace where
  tet : Int
  face : Int
deriving DecidableEq, Repr

/-- `NTetFace::isBoundary(nTets)`: the destination used for an unmatched facet. -/
def TetFace.isBoundary (f : TetFace) (nTets : Int) : Bool :=
  f.tet = nTets

/-- The entry `NEdge::edgeNumber[v][w]`: the number (0..5) of the tetrahedron
edge joining vertices `v` and `w`.  Modelled from the spec: the source file
`triangulation/nedge.h` is not part of the visible sources; the spec fixes the
standard Regina edge numbering in which edge `e` runs from its lesser vertex to
its greater vertex, edges being enumerated `01, 02, 03, 12, 13, 23`.
The diagonal of the C++ table holds `-1`. -/
def edgeNumber (v w : Int) : Int :=
  if (v = 0 ∧ w = 1) ∨ (v = 1 ∧ w = 0) then 0
  else if (v = 0 ∧ w = 2) ∨ (v = 2 ∧ w = 0) then 1
  else if (v = 0 ∧ w = 3) ∨ (v = 3 ∧ w = 0) then 2
  else if (v = 1 ∧ w = 2) ∨ (v = 2 ∧ w = 1) then 3
  else if (v = 1 ∧ w = 3) ∨ (v = 3 ∧ w = 1) then 4
  else if (v = 2 ∧ w = 3) ∨ (v = 3 ∧ w = 2) then 5
  else -1

/-- The entry `NEdge::edgeVertex[e][i]`: vertex `i` (0 or 1) of tetrahedron
edge `e`, with `edgeVertex e 0 < edgeVertex e 1`.  Modelled from the spec,
matching the numbering of `edgeNumber`. -/
def edgeVertex (e i : Int) : Int :=
  if e = 0 then (if i = 0 then 0 else 1)
  else if e = 1 then (if i = 0 then 0 else 2)
  else if e = 2 then (if i = 0 then 0 else 3)
  else if e = 3 then (if i = 0 then 1 else 2)
  else if e = 4 then (if i = 0 then 1 else 3)
  else if e = 5 then (if i = 0 then 2 else 3)
  else 0

/-- `NCompactSearcher::TetEdgeState` (declared in `ngluingpermsearcher.h`,
used throughout `compact.cpp`).  Field meanings follow `compact.cpp`'s own
`dumpData`/`readData` and the end-of-search sanity checks. -/
structure TetEdgeState where
  parent : Int
  rank : Int
  size : Int
  bounded : Bool
  twistUp : Bool
  hadEqualRank : Bool
deriving DecidableEq, Repr

/-- Modelled from the spec: fresh `TetEdgeState` nodes start as singleton
classes (`parent = -1`, `rank = 0`, `size = 1`, `bounded`), exactly the
configuration that `runSearch`'s end-of-search sanity check in `compact.cpp`
demands. -/
def TetEdgeState.init : TetEdgeState :=
  { parent := -1, rank := 0, size := 1, bounded := true,
    twistUp := false, hadEqualRank := false }

instance {α : Type} [DecidableEq α] : DecidableEq (Bool → α) := fun f g =>
  decidable_of_iff (f false = g false ∧ f true = g true)
    (by
      constructor
      · rintro ⟨h1, h2⟩
        funext b
        cases b
        · exact h1
        · exact h2
      · intro h
        rw [h]
        exact ⟨rfl, rfl⟩)

/-- `NCompactSearcher::TetVertexState`.  The two-element arrays `bdryNext`,
`bdryTwist` and their backups are modelled as functions from `Bool`
(`false` = index 0). -/
structure TetVertexState where
  parent : Int
  rank : Int
  bdry : Int
  twistUp : Bool
  hadEqualRank : Bool
  bdryEdges : Int
  bdryNext : Bool → Int
  bdryTwist : Bool → Bool
  bdryNextOld : Bool → Int
  bdryTwistOld : Bool → Bool
deriving DecidableEq

/-- The state of both union-find forests of `NCompactSearcher`, together with
the class counters and the per-level change logs. -/
structure CompactState where
  nVertexClasses : Int
  vertexState : Int → TetVertexState
  vertexStateChanged : Int → Int
  nEdgeClasses : Int
  edgeState : Int → TetEdgeState
  edgeStateChanged : Int → Int

/-- `NCompactSearcher::findEdgeClass(int, char&)` (inline in
`ngluingpermsearcher.h`, modelled from the spec: follow union-find parent
pointers to the root, XOR-ing the `twistUp` bits met along the way).
The C++ loop runs until `parent < 0`; a fuel argument makes it total. -/
def findEdgeClass (es : Int → TetEdgeState) : Nat → Int → Bool → Int × Bool
  | 0, i, tw => (i, tw)
  | fuel + 1, i, tw =>
    if (es i).parent ≥ 0 then
      findEdgeClass es fuel (es i).parent (Bool.xor tw (es i).twistUp)
    else (i, tw)

/-- One iteration (for a fixed `v2 ≠ v1`) of the loop in
`NCompactSearcher::mergeEdgeClasses` (`compact.cpp`).  Returns the updated
state and this pair's contribution to the return flag. -/
def mergeEdgePair (fuel : Nat) (faceT adjT : TetFace) (p : Int → Int)
    (orderElt v2 : Int) (cs : CompactState) : CompactState × Bool :=
  let v1 := faceT.face
  let w1 := p v1
  let w2 := p v2
  let e := 5 - edgeNumber v1 v2
  let f := 5 - edgeNumber w1 w2
  let orderIdx := v2 + 4 * orderElt
  let hasTwist : Bool := decide (p (edgeVertex e 0) > p (edgeVertex e 1))
  let er := findEdgeClass cs.edgeState fuel (e + 6 * faceT.tet) false
  let fr := findEdgeClass cs.edgeState fuel (f + 6 * adjT.tet) er.2
  let eRep := er.1
  let fRep := fr.1
  let parentTwists := fr.2
  if eRep = fRep then
    ({ cs with
        edgeState := Function.update cs.edgeState eRep
          { cs.edgeState eRep with bounded := false },
        edgeStateChanged := Function.update cs.edgeStateChanged orderIdx (-1) },
      Bool.xor hasTwist parentTwists)
  else
    let se := cs.edgeState eRep
    let sf := cs.edgeState fRep
    if se.rank < sf.rank then
      -- Join eRep beneath fRep.
      ({ cs with
          edgeState := Function.update
            (Function.update cs.edgeState eRep
              { se with parent := fRep, twistUp := Bool.xor hasTwist parentTwists })
            fRep { sf with size := sf.size + se.size },
          edgeStateChanged := Function.update cs.edgeStateChanged orderIdx eRep,
          nEdgeClasses := cs.nEdgeClasses - 1 }, false)
    else
      -- Join fRep beneath eRep.
      ({ cs with
          edgeState := Function.update
            (Function.update cs.edgeState fRep
              { sf with parent := eRep, twistUp := Bool.xor hasTwist parentTwists,
                        hadEqualRank :=
                          if se.rank = sf.rank then true else sf.hadEqualRank })
            eRep { se with
                    rank := if se.rank = sf.rank then se.rank + 1 else se.rank,
                    size := se.size + sf.size },
          edgeStateChanged := Function.update cs.edgeStateChanged orderIdx fRep,
          nEdgeClasses := cs.nEdgeClasses - 1 }, false)

/-- `NCompactSearcher::mergeEdgeClasses` (`compact.cpp`): merge the three
edge pairs for the current face, accumulating the invalid-edge flag. -/
def mergeEdgeClasses (fuel : Nat) (faceT adjT : TetFace) (p : Int → Int)
    (orderElt : Int) (cs : CompactState) : CompactState × Bool :=
  List.foldl
    (fun acc v2 =>
      if v2 = faceT.face then acc
      else
        let r := mergeEdgePair fuel faceT adjT p orderElt v2 acc.1
        (r.1, acc.2 || r.2))
    (cs, false) [0, 1, 2, 3]

/-- One iteration (for a fixed `v2 ≠ v1`) of the loop in
`NCompactSearcher::splitEdgeClasses` (`compact.cpp`). -/
def splitEdgePair (fuel : Nat) (faceT : TetFace) (orderElt v2 : Int)
    (cs : CompactState) : CompactState :=
  let v1 := faceT.face
  let e := 5 - edgeNumber v1 v2
  let eIdx := e + 6 * faceT.tet
  let orderIdx := v2 + 4 * orderElt
  if cs.edgeStateChanged orderIdx < 0 then
    let root := (findEdgeClass cs.edgeState fuel eIdx false).1
    { cs with
        edgeState := Function.update cs.edgeState root
          { cs.edgeState root with bounded := true } }
  else
    let subRep := cs.edgeStateChanged orderIdx
    let rep := (cs.edgeState subRep).parent
    let ssub := cs.edgeState subRep
    let cs1 :=
      { cs with
          edgeState := Function.update cs.edgeState subRep
            { ssub with parent := -1, hadEqualRank := false } }
    let cs2 :=
      if ssub.hadEqualRank then
        { cs1 with
            edgeState := Function.update cs1.edgeState rep
              { cs1.edgeState rep with rank := (cs1.edgeState rep).rank - 1 } }
      else cs1
    { cs2 with
        edgeState := Function.update cs2.edgeState rep
          { cs2.edgeState rep with size := (cs2.edgeState rep).size - ssub.size },
        edgeStateChanged := Function.update cs2.edgeStateChanged orderIdx (-1),
        nEdgeClasses := cs2.nEdgeClasses + 1 }

/-- `NCompactSearcher::splitEdgeClasses` (`compact.cpp`): undo the work of
`mergeEdgeClasses`, iterating the vertices in reverse order. -/
def splitEdgeClasses (fuel : Nat) (faceT : TetFace) (orderElt : Int)
    (cs : CompactState) : CompactState :=
  List.foldl
    (fun acc v2 => if v2 = faceT.face then acc
                   else splitEdgePair fuel faceT orderElt v2 acc)
    cs [3, 2, 1, 0]

/-- The initial tracker state built by the `NCompactSearcher` constructor
(`compact.cpp`, lines 184–204): `4N` vertex classes with `bdryEdges = 3` and
self-referential boundary cycles, `6N` edge classes, all change logs `-1`.
The fields not assigned in `compact.cpp` (`parent`, `rank`, `bdry`, `twistUp`,
`hadEqualRank`, `size`, `bounded`) are modelled from the spec: nodes start as
singleton classes with full boundary (`bdry = 3`, `size = 1`, `bounded`),
which is also what the end-of-search sanity check in `runSearch` expects. -/
def CompactState.init (nTets : Int) : CompactState where
  nVertexClasses := 4 * nTets
  vertexState := fun i =>
    { parent := -1, rank := 0, bdry := 3, twistUp := false,
      hadEqualRank := false, bdryEdges := 3,
      bdryNext := fun _ => i, bdryTwist := fun _ => false,
      bdryNextOld := fun _ => -1, bdryTwistOld := fun _ => false }
  vertexStateChanged := fun _ => -1
  nEdgeClasses := 6 * nTets
  edgeState := fun _ => TetEdgeState.init
  edgeStateChanged := fun _ => -1

/-- The observable effect of a different-class edge union: the absorbed
child becomes a twisted child of the surviving root, the root's size grows by
the child's size, the change log records the child, and the rank/`hadEqualRank`
bookkeeping of union-by-rank is respected. -/
def EdgeUnionFacts (cs res : CompactState) (child root orderIdx : Int)
    (tw : Bool) : Prop :=
  (res.edgeState child).parent = root ∧
  (res.edgeState child).twistUp = tw ∧
  (res.edgeState root).parent = (cs.edgeState root).parent ∧
  (res.edgeState root).size =
    (cs.edgeState root).size + (cs.edgeState child).size ∧
  res.edgeStateChanged orderIdx = child ∧
  ((cs.edgeState child).rank = (cs.edgeState root).rank →
    (res.edgeState root).rank = (cs.edgeState root).rank + 1 ∧
    (res.edgeState child).hadEqualRank = true) ∧
  ((cs.edgeState child).rank ≠ (cs.edgeState root).rank →
    (res.edgeState root).rank = (cs.edgeState root).rank ∧
    (res.edgeState child).hadEqualRank = (cs.edgeState child).hadEqualRank)

/-- The behaviour `mergeEdgeClasses` must exhibit on the pair indexed by `v2`
(claim C5): writing `e` for the edge opposite `v1 v2` on the near side,
`eRep`/`fRep` for the union-find representatives of the two edge ends,
`ptw` for the twists accumulated along both union-find paths and
`htw` for the orientation twist of the gluing on edge `e`:
a same-class merge clears the representative's `bounded` flag, changes
nothing else, and reports an inconsistency exactly when `htw XOR ptw` is set;
a different-class merge reports nothing, unions by rank (ties going to the
near-side representative) and adds the absorbed class's size to the surviving
root's size. -/
def MergeEdgePairSpec (fuel : Nat) (faceT adjT : TetFace) (p : Int → Int)
    (orderElt v2 : Int) (cs : CompactState) : Prop :=
  let v1 := faceT.face
  let e := 5 - edgeNumber v1 v2
  let f := 5 - edgeNumber (p v1) (p v2)
  let orderIdx := v2 + 4 * orderElt
  let er := findEdgeClass cs.edgeState fuel (e + 6 * faceT.tet) false
  let fr := findEdgeClass cs.edgeState fuel (f + 6 * adjT.tet) er.2
  let eRep := er.1
  let fRep := fr.1
  let ptw := fr.2
  let htw : Bool := decide (p (edgeVertex e 0) > p (edgeVertex e 1))
  let res := mergeEdgePair fuel faceT adjT p orderElt v2 cs
  -- the orientation twist is reversal of the lesser-to-greater direction
  ((htw = true ↔ p (edgeVertex e 0) > p (edgeVertex e 1)) ∧
   edgeVertex e 0 < edgeVertex e 1 ∧
   edgeVertex e 0 ≠ v1 ∧ edgeVertex e 0 ≠ v2 ∧
   edgeVertex e 1 ≠ v1 ∧ edgeVertex e 1 ≠ v2) ∧
  -- same-class case
  (eRep = fRep →
    res.2 = Bool.xor htw ptw ∧
    res.1.edgeState eRep = { cs.edgeState eRep with bounded := false } ∧
    (∀ j, j ≠ eRep → res.1.edgeState j = cs.edgeState j) ∧
    res.1.nEdgeClasses = cs.nEdgeClasses ∧
    res.1.edgeStateChanged orderIdx = -1 ∧
    (∀ j, j ≠ orderIdx → res.1.edgeStateChanged j = cs.edgeStateChanged j)) ∧
  -- different-class case: union by rank, size accumulated onto the new root
  (eRep ≠ fRep →
    res.2 = false ∧
    res.1.nEdgeClasses = cs.nEdgeClasses - 1 ∧
    ((cs.edgeState eRep).rank < (cs.edgeState fRep).rank →
      EdgeUnionFacts cs res.1 eRep fRep orderIdx (Bool.xor htw ptw)) ∧
    (¬ (cs.edgeState eRep).rank < (cs.edgeState fRep).rank →
      EdgeUnionFacts cs res.1 fRep eRep orderIdx (Bool.xor htw ptw)))

/-! ## Deserialisation (`readData` and the `std::istream` constructor)

The token streams produced by `dumpData` are sequences of whitespace-separated
integers; we model them as `List Int`.  A C++ `operator>>` read that runs out
of input makes the surrounding constructor flag an input error (directly via
the final `eof()` check), which the `Option` monad models by failing the
parse.  Conversions into narrower C++ types are made explicit: `toULong`
reinterprets a token as the `unsigned long` it would become, `toSChar` as a
(signed) `char`. -/

/-- A token reinterpreted as a C++ `unsigned long` (two's complement). -/
def toULong (t : Int) : Int := t % (2 : Int) ^ 64

/-- A token reinterpreted as a C++ `unsigned char`. -/
def toUChar (t : Int) : Int := t % 256

/-- A token reinterpreted as a C++ signed `char`. -/
def toSChar (t : Int) : Int :=
  let u := t % 256
  if u ≥ 128 then u - 256 else u

/-- Read one integer token from the stream. -/
def readTok (ts : List Int) : Option (Int × List Int) :=
  match ts with
  | [] => none
  | t :: rest => some (t, rest)

/-- `NCompactSearcher::TetVertexState::readData` (`compact.cpp`, lines
74–129): read the fourteen fields of one vertex node and validate each
against its structural bound.  The transcription keeps the source's exact
checks — including the check on line 115, which tests `bdryNext[0]` where
its neighbours test `bdryNextOld[...]`. -/
def TetVertexState.readData (nStates : Int) (ts : List Int) :
    Option (TetVertexState × List Int) :=
  match ts with
  | parent :: rank0 :: bdry0 :: twist :: bRank :: bVal0 ::
    bdryNext0 :: bdryNext1 :: bVal1 :: bVal2 ::
    bdryNextOld0 :: bdryNextOld1 :: bVal3 :: bVal4 :: rest =>
    let rank := toULong rank0
    let bdry := toULong bdry0
    let bdryEdges := toUChar bVal0
    let bdryTwist0 := toSChar bVal1
    let bdryTwist1 := toSChar bVal2
    let bdryTwistOld0 := toSChar bVal3
    let bdryTwistOld1 := toSChar bVal4
    if parent < -1 ∨ parent ≥ nStates then none
    else if rank ≥ nStates then none
    else if bdry > 3 * nStates then none
    else if twist ≠ 1 ∧ twist ≠ 0 then none
    else if bRank ≠ 1 ∧ bRank ≠ 0 then none
    else if bdryEdges > 3 then none
    else if bdryNext0 < 0 ∨ bdryNext0 ≥ nStates then none
    else if bdryNext1 < 0 ∨ bdryNext1 ≥ nStates then none
    -- `compact.cpp:115`: the second disjunct reads `bdryNext[0]`, not
    -- `bdryNextOld[0]`.
    else if bdryNextOld0 < -1 ∨ bdryNext0 ≥ nStates then none
    else if bdryNextOld1 < -1 ∨ bdryNextOld1 ≥ nStates then none
    else if bdryTwist0 < 0 ∨ bdryTwist0 > 1 then none
    else if bdryTwist1 < 0 ∨ bdryTwist1 > 1 then none
    else if bdryTwistOld0 < 0 ∨ bdryTwistOld0 > 1 then none
    else if bdryTwistOld1 < 0 ∨ bdryTwistOld1 > 1 then none
    else some
      (({ parent := parent, rank := rank, bdry := bdry,
          twistUp := twist = 1, hadEqualRank := bRank = 1,
          bdryEdges := bdryEdges,
          bdryNext := fun b => if b then bdryNext1 else bdryNext0,
          bdryTwist := fun b => if b then bdryTwist1 = 1 else bdryTwist0 = 1,
          bdryNextOld := fun b => if b then bdryNextOld1 else bdryNextOld0,
          bdryTwistOld := fun b =>
            if b then bdryTwistOld1 = 1 else bdryTwistOld0 = 1 } :
        TetVertexState), rest)
  | _ => none

/-- `NCompactSearcher::TetEdgeState::readData` (`compact.cpp`, lines
139–172). -/
def TetEdgeState.readData (nStates : Int) (ts : List Int) :
    Option (TetEdgeState × List Int) :=
  match ts with
  | parent :: rank0 :: size0 :: bBounded :: twist :: bRank :: rest =>
    let rank := toULong rank0
    let size := toULong size0
    if parent < -1 ∨ parent ≥ nStates then none
    else if rank ≥ nStates then none
    else if size ≥ nStates then none
    else if bBounded ≠ 1 ∧ bBounded ≠ 0 then none
    else if twist ≠ 1 ∧ twist ≠ 0 then none
    else if bRank ≠ 1 ∧ bRank ≠ 0 then none
    else some
      (({ parent := parent, rank := rank, size := size,
          bounded := bBounded = 1, twistUp := twist = 1,
          hadEqualRank := bRank = 1 } : TetEdgeState), rest)
  | _ => none

/-- Read `n` consecutive records with a given record reader. -/
def readN {α : Type} (rd : List Int → Option (α × List Int)) :
    Nat → List Int → Option (List α × List Int)
  | 0, ts => some ([], ts)
  | n + 1, ts =>
    match rd ts with
    | none => none
    | some (x, ts1) =>
      match readN rd n ts1 with
      | none => none
      | some (xs, ts2) => some (x :: xs, ts2)

/-- Read one `vertexStateChanged` / `edgeStateChanged` entry and validate it
against `[-1, bound)` (`compact.cpp`, lines 496–502 and 516–522). -/
def readChanged (bound : Int) (ts : List Int) : Option (Int × List Int) :=
  match ts with
  | x :: rest => if x < -1 ∨ x ≥ bound then none else some (x, rest)
  | _ => none

/-- Turn a parsed list into the total-function representation of a C++ array. -/
def listToFun {α : Type} (l : List α) (d : α) : Int → α :=
  fun i => if 0 ≤ i then l.getD i.toNat d else d

/-- The body of the `std::istream` constructor
`NCompactSearcher::NCompactSearcher(std::istream&, ...)` (`compact.cpp`,
lines 473–527), applied to the token stream that follows the base-class
data.  `none` models `inputError_ = true`.  The final `in.eof()` test is
modelled as "the last read consumed the end of the stream", i.e. no token
remains (`dumpData` always leaves a trailing newline, so a well-formed dump
leaves the stream non-exhausted). -/
def readCompactData (nTets : Nat) (ts : List Int) : Option CompactState :=
  let N : Int := (nTets : Int)
  match readTok ts with
  | none => none
  | some (nvc0, ts) =>
    let nvc := toULong nvc0
    if nvc > 4 * N then none else
    match readN (TetVertexState.readData (4 * N)) (4 * nTets) ts with
    | none => none
    | some (vss, ts) =>
      match readN (readChanged (4 * N)) (8 * nTets) ts with
      | none => none
      | some (vch, ts) =>
        match readTok ts with
        | none => none
        | some (nec0, ts) =>
          let nec := toULong nec0
          if nec > 6 * N then none else
          match readN (TetEdgeState.readData (6 * N)) (6 * nTets) ts with
          | none => none
          | some (ess, ts) =>
            match readN (readChanged (6 * N)) (8 * nTets) ts with
            | none => none
            | some (ech, ts) =>
              if ts.isEmpty then none
              else some
                ({ nVertexClasses := nvc,
                   vertexState := listToFun vss
                     ((CompactState.init N).vertexState 0),
                   vertexStateChanged := listToFun vch (-1),
                   nEdgeClasses := nec,
                   edgeState := listToFun ess TetEdgeState.init,
                   edgeStateChanged := listToFun ech (-1) } : CompactState)

/-- One serialised vertex node: fields in `dumpData` order, with the two
backup neighbour fields passed as arguments. -/
def vtxTokens (i old0 old1 : Int) : List Int :=
  [-1, 0, 3, 0, 0, 3, i, i, 0, 0, old0, old1, 0, 0]

/-- A token stream for one tetrahedron whose vertex node 0 carries
`bdryNextOld[0] = old0` and `bdryNextOld[1] = old1`; all other fields are
those of a freshly initialised searcher. -/
def c6Tokens (old0 old1 : Int) : List Int :=
  [4] ++ vtxTokens 0 old0 old1 ++ vtxTokens 1 (-1) (-1) ++
  vtxTokens 2 (-1) (-1) ++ vtxTokens 3 (-1) (-1) ++
  [-1, -1, -1, -1, -1, -1, -1, -1] ++
  [6] ++ [-1, 0, 1, 1, 0, 0] ++ [-1, 0, 1, 1, 0, 0] ++ [-1, 0, 1, 1, 0, 0] ++
  [-1, 0, 1, 1, 0, 0] ++ [-1, 0, 1, 1, 0, 0] ++ [-1, 0, 1, 1, 0, 0] ++
  [-1, -1, -1, -1, -1, -1, -1, -1] ++ [0]

/-! ## Vertex-class tracking (`mergeVertexClasses` / `splitVertexClasses`)

The boundary cycles of partial vertex links are doubly-linked lists with
orientation bits.  The inline helpers (`vtxBdryJoin`, `vtxBdryNext`, ...)
are declared in `ngluingpermsearcher.h`, which is not among the visible
sources; they are modelled from the spec (section 4.3) and pinned down by the
adjacency convention that `compact.cpp`'s own `vtxBdryConsistencyCheck`
enforces: if `bdryNext[e]` of `id` is `adj` with twist `t`, then
`bdryNext[(1 ^ e) ^ t]` of `adj` is `id` with twist `t`. -/

/-- The table `NCompactSearcher::vertexLinkNextFace` (`compact.cpp`,
lines 43–48). -/
def vertexLinkNextFace (v f : Int) : Int :=
  if v = 0 then (if f = 1 then 2 else if f = 2 then 3 else if f = 3 then 1 else -1)
  else if v = 1 then (if f = 0 then 3 else if f = 2 then 0 else if f = 3 then 2 else -1)
  else if v = 2 then (if f = 0 then 1 else if f = 1 then 3 else if f = 3 then 0 else -1)
  else if v = 3 then (if f = 0 then 1 else if f = 1 then 2 else if f = 2 then 0 else -1)
  else -1

/-- The table `NCompactSearcher::vertexLinkPrevFace` (`compact.cpp`,
lines 50–55). -/
def vertexLinkPrevFace (v f : Int) : Int :=
  if v = 0 then (if f = 1 then 3 else if f = 2 then 1 else if f = 3 then 2 else -1)
  else if v = 1 then (if f = 0 then 2 else if f = 2 then 3 else if f = 3 then 0 else -1)
  else if v = 2 then (if f = 0 then 3 else if f = 1 then 0 else if f = 3 then 1 else -1)
  else if v = 3 then (if f = 0 then 2 else if f = 1 then 0 else if f = 2 then 1 else -1)
  else -1

/-- Overwrite one end of a node's boundary-neighbour pair. -/
def TetVertexState.setBdryNext (st : TetVertexState) (e : Bool) (x : Int) :
    TetVertexState :=
  { st with bdryNext := fun b => if b = e then x else st.bdryNext b }

/-- Overwrite one end of a node's boundary-twist pair. -/
def TetVertexState.setBdryTwist (st : TetVertexState) (e : Bool) (t : Bool) :
    TetVertexState :=
  { st with bdryTwist := fun b => if b = e then t else st.bdryTwist b }

/-- `NCompactSearcher::vtxBdryJoin` (modelled from the spec and the
`vtxBdryConsistencyCheck` convention): make `w` the neighbour at end `e` of
`v` with twist `t`, and symmetrically make `v` the neighbour at end
`(1 ^ e) ^ t` of `w`. -/
def vtxBdryJoin (vs : Int → TetVertexState) (v : Int) (e : Bool) (w : Int)
    (t : Bool) : Int → TetVertexState :=
  let vs1 := Function.update vs v (((vs v).setBdryNext e w).setBdryTwist e t)
  let s := Bool.xor (!e) t
  Function.update vs1 w (((vs1 w).setBdryNext s v).setBdryTwist s t)

/-- `NCompactSearcher::vtxBdryBackup` (modelled from the spec: copy the
boundary-cycle fields into their backup slots before a merge overwrites
them). -/
def vtxBdryBackup (vs : Int → TetVertexState) (v : Int) :
    Int → TetVertexState :=
  Function.update vs v
    { vs v with bdryNextOld := (vs v).bdryNext, bdryTwistOld := (vs v).bdryTwist }

/-- `NCompactSearcher::vtxBdryRestore` (modelled from the spec: restore the
boundary-cycle fields from their backup slots). -/
def vtxBdryRestore (vs : Int → TetVertexState) (v : Int) :
    Int → TetVertexState :=
  Function.update vs v
    { vs v with bdryNext := (vs v).bdryNextOld, bdryTwist := (vs v).bdryTwistOld }

/-- `NCompactSearcher::vtxBdryFixAdj` (modelled from the spec: make the two
recorded neighbours of `v` point back at `v`, unless `v` is its own
neighbour).  The writes target `bdryNext[0]` and `bdryNext[1]` of `v`'s
neighbours at the slots dictated by the consistency convention. -/
def vtxBdryFixAdj (vs : Int → TetVertexState) (v : Int) :
    Int → TetVertexState :=
  if (vs v).bdryNext false ≠ v then
    let n0 := (vs v).bdryNext false
    let t0 := (vs v).bdryTwist false
    let n1 := (vs v).bdryNext true
    let t1 := (vs v).bdryTwist true
    let vs1 := Function.update vs n0
      (((vs n0).setBdryNext (!t0) v).setBdryTwist (!t0) t0)
    Function.update vs1 n1
      (((vs1 n1).setBdryNext t1 v).setBdryTwist t1 t1)
  else vs

/-- `NCompactSearcher::vtxBdryLength1` (modelled from the spec): the node is
a boundary cycle of length one. -/
def vtxBdryLength1 (vs : Int → TetVertexState) (v : Int) : Bool :=
  (vs v).bdryNext false = v ∧ (vs v).bdryEdges = 1

/-- `NCompactSearcher::vtxBdryLength2` (modelled from the spec): the two
nodes together form a boundary cycle of length two. -/
def vtxBdryLength2 (vs : Int → TetVertexState) (v1 v2 : Int) : Bool :=
  (vs v1).bdryNext false = v2 ∧ (vs v1).bdryNext true = v2 ∧
  (vs v1).bdryEdges = 1 ∧ (vs v2).bdryEdges = 1

/-- `NCompactSearcher::vtxBdryNext` (modelled from the spec): the neighbours,
in the boundary cycle of the partial vertex link, of the link-triangle edge
of `vertexID` that is dual to `bdryFace`.  With three boundary edges the
whole cycle is this one triangle; with two, the side on which the corner's
other boundary edge lies is found by testing whether the next face around
the vertex is still unglued; with one, the recorded neighbours are exact. -/
def vtxBdryNext (vs : Int → TetVertexState) (permIdx : TetFace → Int)
    (vertexID tet vertex bdryFace : Int) : (Bool → Int) × (Bool → Bool) :=
  let st := vs vertexID
  if st.bdryEdges = 3 then (fun _ => vertexID, fun _ => false)
  else if st.bdryEdges = 2 then
    if permIdx ⟨tet, vertexLinkNextFace vertex bdryFace⟩ < 0 then
      (fun b => if b then vertexID else st.bdryNext false,
       fun b => if b then false else st.bdryTwist false)
    else
      (fun b => if b then st.bdryNext true else vertexID,
       fun b => if b then st.bdryTwist true else false)
  else (st.bdryNext, st.bdryTwist)

/-- The union-find chase of `mergeVertexClasses` (`compact.cpp`, lines
562–568): walk to the root, XOR-ing `twistUp` along the way. -/
def findVertexClass (vs : Int → TetVertexState) :
    Nat → Int → Bool → Int × Bool
  | 0, i, tw => (i, tw)
  | fuel + 1, i, tw =>
    if (vs i).parent ≥ 0 then
      findVertexClass vs fuel (vs i).parent (Bool.xor tw (vs i).twistUp)
    else (i, tw)

/-- The boundary-cycle scan of `mergeVertexClasses` (`compact.cpp`, lines
658–666): walk the cycle from `vIdx`'s end-0 neighbour until reaching `vIdx`
(different cycles) or `wIdx` (same cycle).  Fuel makes the walk total; on
exhaustion the current position is returned. -/
def scanBdry (vs : Int → TetVertexState) (vIdx wIdx : Int) :
    Nat → Int → Bool → Int
  | 0, tmpIdx, _ => tmpIdx
  | fuel + 1, tmpIdx, tmpTwist =>
    if tmpIdx ≠ vIdx ∧ tmpIdx ≠ wIdx then
      scanBdry vs vIdx wIdx fuel ((vs tmpIdx).bdryNext tmpTwist)
        (Bool.xor tmpTwist ((vs tmpIdx).bdryTwist tmpTwist))
    else tmpIdx

/-- Whether `p` (as a permutation of `{0,1,2,3}`) is odd, i.e.
`NPerm::sign() < 0`.  Modelled from the spec: the sign is the parity of the
number of inversions. -/
def permSignNeg (p : Int → Int) : Bool :=
  ([(0, 1), (0, 2), (0, 3), (1, 2), (1, 3), (2, 3)].countP
    (fun q => decide (p (q.1 : Int) > p (q.2 : Int)))) % 2 = 1

/-- The `hasTwist` computation of `mergeVertexClasses` (`compact.cpp`, lines
558–560): start from the sign of the gluing permutation and flip when
exactly one of `v`, `w` plays the role of vertex 3. -/
def mergeHasTwist (p : Int → Int) (v w : Int) : Bool :=
  let h0 : Bool := !(permSignNeg p)
  if (v = 3 ∧ w ≠ 3) ∨ (v ≠ 3 ∧ w = 3) then !h0 else h0

/-- The same-class vertex merge's first action (`compact.cpp`, lines
575–577): decrement the representative's boundary count by two. -/
def sameClassVs1 (cs : CompactState) (vRep : Int) : Int → TetVertexState :=
  Function.update cs.vertexState vRep
    { cs.vertexState vRep with bdry := (cs.vertexState vRep).bdry - 2 }

/-- The boundary-cycle working state of the same-class case of
`mergeVertexClasses` (`compact.cpp`, lines 575–577 and 633–640): the
representative's `bdry` already decremented, and each corner's cycle
pointers backed up when it has exactly two boundary edges left (they are
about to be overwritten). -/
def sameClassBdryState (cs : CompactState) (vRep vIdx wIdx : Int) :
    Int → TetVertexState :=
  let vs1 := sameClassVs1 cs vRep
  let vs2 := if (vs1 vIdx).bdryEdges = 2 then vtxBdryBackup vs1 vIdx else vs1
  if (vs2 wIdx).bdryEdges = 2 then vtxBdryBackup vs2 wIdx else vs2

/-- Folding together two boundary edges of the same link triangle — the
`vIdx = wIdx` sub-case of a same-class merge (`compact.cpp`, lines
582–611). -/
def mergeVxFoldSelf (vs1 : Int → TetVertexState) (hasTwist : Bool)
    (vIdx : Int) : Int → TetVertexState :=
  let vs2 : Int → TetVertexState :=
    if (!hasTwist) ∧ (vs1 vIdx).bdryEdges < 3 then
      if (vs1 vIdx).bdryNext false = vIdx then vs1
      else
        vtxBdryJoin vs1 ((vs1 vIdx).bdryNext false)
          (!((vs1 vIdx).bdryTwist false)) ((vs1 vIdx).bdryNext true)
          (Bool.xor ((vs1 vIdx).bdryTwist true) ((vs1 vIdx).bdryTwist false))
    else vs1
  Function.update vs2 vIdx
    { vs2 vIdx with bdryEdges := (vs2 vIdx).bdryEdges - 2 }

/-- Reconnecting the boundary cycles around two distinct corners of the
same class (`compact.cpp`, lines 642–686).  The returned flag is the
`VLINK_NON_SPHERE` contribution of the cycle analysis: both corners being
length-one cycles, or the scan returning to the first corner without
meeting the second (two distinct cycles fused). -/
def mergeVxBdryAdjust (scanFuel : Nat) (permIdx : TetFace → Int)
    (faceT adjT : TetFace) (v w : Int) (hasTwist : Bool) (vIdx wIdx : Int)
    (vs3 : Int → TetVertexState) : (Int → TetVertexState) × Bool :=
  if vtxBdryLength1 vs3 vIdx ∧ vtxBdryLength1 vs3 wIdx then
    (vs3, true)
  else if vtxBdryLength2 vs3 vIdx wIdx then
    (vs3, false)
  else
    let vn := vtxBdryNext vs3 permIdx vIdx faceT.tet v faceT.face
    let wn := vtxBdryNext vs3 permIdx wIdx adjT.tet w adjT.face
    if vn.1 false = wIdx ∧ wn.1 (!(vn.2 false)) = vIdx then
      (vtxBdryJoin vs3 (vn.1 true) (vn.2 true) (wn.1 (vn.2 false))
        (Bool.xor (Bool.xor (vn.2 false) (wn.2 (vn.2 false)))
          (vn.2 true)), false)
    else if vn.1 true = wIdx ∧ wn.1 (vn.2 true) = vIdx then
      (vtxBdryJoin vs3 (vn.1 false) (!(vn.2 false)) (wn.1 (!(vn.2 true)))
        (Bool.xor (Bool.xor (vn.2 true) (wn.2 (!(vn.2 true))))
          (vn.2 false)), false)
    else
      let tmp := scanBdry vs3 vIdx wIdx scanFuel
        ((vs3 vIdx).bdryNext false) ((vs3 vIdx).bdryTwist false)
      if tmp = vIdx then
        -- Different boundary cycles: flag high genus, touch nothing.
        (vs3, true)
      else
        let j1 := vtxBdryJoin vs3 (vn.1 false) (!(vn.2 false))
          (wn.1 (!hasTwist))
          (Bool.xor (vn.2 false) (Bool.xor hasTwist (wn.2 (!hasTwist))))
        (vtxBdryJoin j1 (vn.1 true) (vn.2 true) (wn.1 hasTwist)
          (Bool.xor (vn.2 true) (Bool.xor hasTwist (wn.2 hasTwist))),
          false)

/-- The distinct-class branch of a vertex merge (`compact.cpp`, lines
688–775): union by rank with twist propagation, boundary-count fusion,
change-log entry, then reconnection of the boundary cycles around the two
newly glued corners. -/
def mergeVxDiffClass (permIdx : TetFace → Int) (faceT adjT : TetFace)
    (v w : Int) (hasTwist parentTwists : Bool)
    (vIdx wIdx vRep wRep orderIdx : Int) (cs : CompactState) :
    CompactState × Bool × Bool :=
  let ur : (Int → TetVertexState) × Bool × Int :=
    if (cs.vertexState vRep).rank < (cs.vertexState wRep).rank then
      -- Join vRep beneath wRep.
      let ov := cs.vertexState vRep
      let vs1 := Function.update cs.vertexState vRep
        { ov with parent := wRep, twistUp := Bool.xor hasTwist parentTwists }
      let vs2 := Function.update vs1 wRep
        { vs1 wRep with bdry := (vs1 wRep).bdry + (vs1 vRep).bdry - 2 }
      (vs2, decide ((vs2 wRep).bdry = 0), vRep)
    else
      -- Join wRep beneath vRep.
      let ow := cs.vertexState wRep
      let vs1 := Function.update cs.vertexState wRep
        { ow with parent := vRep, twistUp := Bool.xor hasTwist parentTwists }
      let vs2 : Int → TetVertexState :=
        if (vs1 vRep).rank = (vs1 wRep).rank then
          Function.update
            (Function.update vs1 vRep
              { vs1 vRep with rank := (vs1 vRep).rank + 1 })
            wRep { vs1 wRep with hadEqualRank := true }
        else vs1
      let vs3 := Function.update vs2 vRep
        { vs2 vRep with bdry := (vs2 vRep).bdry + (vs2 wRep).bdry - 2 }
      (vs3, decide ((vs3 vRep).bdry = 0), wRep)
  let vs3 := ur.1
  let closed := ur.2.1
  let ch1 := Function.update cs.vertexStateChanged orderIdx ur.2.2
  -- Adjust the cycles of boundary components.
  let vs4 := if (vs3 vIdx).bdryEdges = 2 then vtxBdryBackup vs3 vIdx else vs3
  let vs5 := if (vs4 wIdx).bdryEdges = 2 then vtxBdryBackup vs4 wIdx else vs4
  let vs6 : Int → TetVertexState :=
    if vtxBdryLength1 vs5 vIdx then
      if vtxBdryLength1 vs5 wIdx then vs5
      else if (vs5 wIdx).bdryEdges = 1 then
        vtxBdryJoin vs5 ((vs5 wIdx).bdryNext false)
          (!((vs5 wIdx).bdryTwist false)) ((vs5 wIdx).bdryNext true)
          (Bool.xor ((vs5 wIdx).bdryTwist false) ((vs5 wIdx).bdryTwist true))
      else vs5
    else if vtxBdryLength1 vs5 wIdx then
      if (vs5 vIdx).bdryEdges = 1 then
        vtxBdryJoin vs5 ((vs5 vIdx).bdryNext false)
          (!((vs5 vIdx).bdryTwist false)) ((vs5 vIdx).bdryNext true)
          (Bool.xor ((vs5 vIdx).bdryTwist false) ((vs5 vIdx).bdryTwist true))
      else vs5
    else
      let vn := vtxBdryNext vs5 permIdx vIdx faceT.tet v faceT.face
      let wn := vtxBdryNext vs5 permIdx wIdx adjT.tet w adjT.face
      let j1 := vtxBdryJoin vs5 (vn.1 false) (!(vn.2 false))
        (wn.1 (!hasTwist))
        (Bool.xor (vn.2 false) (Bool.xor hasTwist (wn.2 (!hasTwist))))
      vtxBdryJoin j1 (vn.1 true) (vn.2 true) (wn.1 hasTwist)
        (Bool.xor (vn.2 true) (Bool.xor hasTwist (wn.2 hasTwist)))
  let vs7 := Function.update vs6 vIdx
    { vs6 vIdx with bdryEdges := (vs6 vIdx).bdryEdges - 1 }
  let vs8 := Function.update vs7 wIdx
    { vs7 wIdx with bdryEdges := (vs7 wIdx).bdryEdges - 1 }
  ({ cs with vertexState := vs8, vertexStateChanged := ch1,
             nVertexClasses := cs.nVertexClasses - 1 }, closed, false)

/-- One iteration (for a fixed `v ≠ face.face`) of the loop in
`NCompactSearcher::mergeVertexClasses` (`compact.cpp`, lines 544–777).
Returns the updated state, the `VLINK_CLOSED` contribution and the
`VLINK_NON_SPHERE` contribution. -/
def mergeVertexPair (ufFuel scanFuel : Nat) (faceT adjT : TetFace)
    (p : Int → Int) (permIdx : TetFace → Int) (orderElt v : Int)
    (cs : CompactState) : CompactState × Bool × Bool :=
  let w := p v
  let vIdx := v + 4 * faceT.tet
  let wIdx := w + 4 * adjT.tet
  let orderIdx := v + 4 * orderElt
  let hasTwist := mergeHasTwist p v w
  let vr := findVertexClass cs.vertexState ufFuel vIdx false
  let wr := findVertexClass cs.vertexState ufFuel wIdx vr.2
  let vRep := vr.1
  let wRep := wr.1
  let parentTwists := wr.2
  if vRep = wRep then
    -- Same vertex class.
    let vs1 := sameClassVs1 cs vRep
    let closed : Bool := decide ((vs1 vRep).bdry = 0)
    let nonSphere0 : Bool := Bool.xor hasTwist parentTwists
    let ch1 := Function.update cs.vertexStateChanged orderIdx (-1)
    if vIdx = wIdx then
      -- Folding together two edges of the same link triangle.
      ({ cs with vertexState := mergeVxFoldSelf vs1 hasTwist vIdx,
                 vertexStateChanged := ch1 }, closed, nonSphere0)
    else
      -- Two distinct corners already contributing to the same link.
      let vs3 := sameClassBdryState cs vRep vIdx wIdx
      let r := mergeVxBdryAdjust scanFuel permIdx faceT adjT v w hasTwist
        vIdx wIdx vs3
      let vs5 := Function.update r.1 vIdx
        { r.1 vIdx with bdryEdges := (r.1 vIdx).bdryEdges - 1 }
      let vs6 := Function.update vs5 wIdx
        { vs5 wIdx with bdryEdges := (vs5 wIdx).bdryEdges - 1 }
      ({ cs with vertexState := vs6, vertexStateChanged := ch1 },
        closed, nonSphere0 || r.2)
  else
    mergeVxDiffClass permIdx faceT adjT v w hasTwist parentTwists
      vIdx wIdx vRep wRep orderIdx cs

/-- `NCompactSearcher::mergeVertexClasses` (`compact.cpp`): merge the three
corner pairs for the current face, accumulating the `VLINK_CLOSED` and
`VLINK_NON_SPHERE` bits of the return value. -/
def mergeVertexClasses (ufFuel scanFuel : Nat) (faceT adjT : TetFace)
    (p : Int → Int) (permIdx : TetFace → Int) (orderElt : Int)
    (cs : CompactState) : CompactState × Bool × Bool :=
  List.foldl
    (fun acc v =>
      if v = faceT.face then acc
      else
        let r := mergeVertexPair ufFuel scanFuel faceT adjT p permIdx
          orderElt v acc.1
        (r.1, acc.2.1 || r.2.1, acc.2.2 || r.2.2))
    (cs, false, false) [0, 1, 2, 3]

/-- One iteration (for a fixed `v ≠ face.face`) of the loop in
`NCompactSearcher::splitVertexClasses` (`compact.cpp`, lines 782–872). -/
def splitVertexPair (ufFuel : Nat) (faceT adjT : TetFace) (p : Int → Int)
    (orderElt v : Int) (cs : CompactState) : CompactState :=
  let w := p v
  let vIdx := v + 4 * faceT.tet
  let wIdx := w + 4 * adjT.tet
  let orderIdx := v + 4 * orderElt
  let cs1 : CompactState :=
    if cs.vertexStateChanged orderIdx < 0 then
      let rep := (findVertexClass cs.vertexState ufFuel vIdx false).1
      { cs with
          vertexState := Function.update cs.vertexState rep
            { cs.vertexState rep with bdry := (cs.vertexState rep).bdry + 2 } }
    else
      let subRep := cs.vertexStateChanged orderIdx
      let rep := (cs.vertexState subRep).parent
      let osub := cs.vertexState subRep
      let vs1 := Function.update cs.vertexState subRep
        { osub with parent := -1, hadEqualRank := false }
      let vs2 : Int → TetVertexState :=
        if (cs.vertexState subRep).hadEqualRank then
          Function.update vs1 rep
            { vs1 rep with rank := (vs1 rep).rank - 1 }
        else vs1
      let vs3 := Function.update vs2 rep
        { vs2 rep with bdry := (vs2 rep).bdry + 2 - (vs2 subRep).bdry }
      { cs with
          vertexState := vs3,
          vertexStateChanged := Function.update cs.vertexStateChanged
            orderIdx (-1),
          nVertexClasses := cs.nVertexClasses + 1 }
  -- Restore cycles of boundary components.
  if vIdx = wIdx then
    let vs1 := Function.update cs1.vertexState vIdx
      { cs1.vertexState vIdx with
          bdryEdges := (cs1.vertexState vIdx).bdryEdges + 2 }
    let vs2 := if (vs1 vIdx).bdryEdges = 2 then vtxBdryFixAdj vs1 vIdx else vs1
    { cs1 with vertexState := vs2 }
  else
    let vs1 := Function.update cs1.vertexState wIdx
      { cs1.vertexState wIdx with
          bdryEdges := (cs1.vertexState wIdx).bdryEdges + 1 }
    let vs2 := Function.update vs1 vIdx
      { vs1 vIdx with bdryEdges := (vs1 vIdx).bdryEdges + 1 }
    let vs3 : Int → TetVertexState :=
      if (vs2 wIdx).bdryEdges = 3 then
        let ow2 := vs2 wIdx
        Function.update vs2 wIdx
          { ow2 with bdryNext := fun _ => wIdx, bdryTwist := fun _ => false }
      else if (vs2 wIdx).bdryEdges = 2 then
        vtxBdryFixAdj (vtxBdryRestore vs2 wIdx) wIdx
      else if (vs2 wIdx).bdryEdges = 1 then vtxBdryFixAdj vs2 wIdx
      else vs2
    let vs4 : Int → TetVertexState :=
      if (vs3 vIdx).bdryEdges = 3 then
        let ov3 := vs3 vIdx
        Function.update vs3 vIdx
          { ov3 with bdryNext := fun _ => vIdx, bdryTwist := fun _ => false }
      else if (vs3 vIdx).bdryEdges = 2 then
        vtxBdryFixAdj (vtxBdryRestore vs3 vIdx) vIdx
      else if (vs3 vIdx).bdryEdges = 1 then vtxBdryFixAdj vs3 vIdx
      else vs3
    { cs1 with vertexState := vs4 }

/-- `NCompactSearcher::splitVertexClasses` (`compact.cpp`): undo the work of
`mergeVertexClasses`, iterating the vertices in reverse order. -/
def splitVertexClasses (ufFuel : Nat) (faceT adjT : TetFace) (p : Int → Int)
    (orderElt : Int) (cs : CompactState) : CompactState :=
  List.foldl
    (fun acc v => if v = faceT.face then acc
                  else splitVertexPair ufFuel faceT adjT p orderElt v acc)
    cs [3, 2, 1, 0]

/-! ## The chain-collapsing searcher (`collapsechain.cpp`)

`NCollapsedChainSearcher::runSearch` delegates to an inner gluing search on
the reduced pairing and hands every inner result to `extendTri`, which is
supposed to walk the recorded chain positions, install the precomputed
permutation choices and forward each fully reconstructed triangulation to
the outer callback.  We embed `extendTri` exactly as written
(`collapsechain.cpp`, lines 116–140). -/

/-- The mutable state visible to `NCollapsedChainSearcher::extendTri`: the
searcher's permutation-index array and the current order position. -/
structure ChainExtendState where
  permIndex : TetFace → Int
  orderElt : Int

/-- The `while (orderElt < maxOrder)` loop of
`NCollapsedChainSearcher::extendTri` (`collapsechain.cpp`, lines 122–139),
made total by fuel.  `none` means the loop was still running when the fuel
ran out; `some st` means the loop exited with final state `st`.  Note the
transcription is exact: no branch increments `orderElt`, no branch invokes
the outer callback, and the triangulation argument of `extendTri` is never
consulted. -/
def extendTriLoop (pairing : TetFace → TetFace) (order : Int → TetFace)
    (cpi : Int → Int)
    (maxOrder : Int) : Nat → ChainExtendState → Option ChainExtendState
  | 0, _ => none
  | fuel + 1, st =>
    if st.orderElt < maxOrder then
      let face := order st.orderElt
      let adj := pairing face
      if st.permIndex face < 0 then
        extendTriLoop pairing order cpi maxOrder fuel
          { st with
              permIndex := Function.update st.permIndex face
                (cpi (2 * st.orderElt)) }
      else if st.permIndex face = cpi st.orderElt then
        extendTriLoop pairing order cpi maxOrder fuel
          { st with
              permIndex := Function.update st.permIndex face
                (cpi (2 * st.orderElt + 1)) }
      else
        extendTriLoop pairing order cpi maxOrder fuel
          { st with
              permIndex :=
                Function.update (Function.update st.permIndex face (-1)) adj
                  (-1),
              orderElt := st.orderElt - 1 }
    else some st

/-- `NCollapsedChainSearcher::extendTri`: set `orderElt = 0` and run the
re-expansion loop.  The `NTriangulation*` parameter of the C++ function is
omitted because the function body never reads it. -/
def extendTri (pairing : TetFace → TetFace) (order : Int → TetFace)
    (cpi : Int → Int)
    (maxOrder : Int) (fuel : Nat) (pi0 : TetFace → Int) :
    Option ChainExtendState :=
  extendTriLoop pairing order cpi maxOrder fuel { permIndex := pi0, orderElt := 0 }

/-! ## The depth-first search driver (`NCompactSearcher::runSearch`)

The pieces of `NGluingPermSearcher` that `compact.cpp` relies on but whose
definitions live in files outside the visible sources are modelled from the
spec as abstract parameters of a `SearchCtx`: the search order (one entry
per matched facet pair), the canonicity test against the pairing's
automorphism list, the `S3` index-to-permutation decoding of gluing
permutations, and the `invS3` table giving the index of the inverse
permutation.  Every claim proved below holds for all instantiations of
these parameters. -/

/-- The mutable state of a gluing-permutation search. -/
structure SearchState where
  cs : CompactState
  permIndex : TetFace → Int
  orientation : Int → Int
  orderElt : Int
  started : Bool

/-- The immutable context of a search: the face pairing, the search order,
and the modelled base-class services. -/
structure SearchCtx where
  nTets : Nat
  pairing : TetFace → TetFace
  order : Int → TetFace
  orderSize : Int
  orientableOnly : Bool
  isCanon : (TetFace → Int) → Bool
  indexToGluing : TetFace → Int → (Int → Int)
  invS3 : Int → Int
  ufFuel : Nat
  scanFuel : Nat

/-- The backtracking tail `splitVertexClasses(); splitEdgeClasses();`
executed at the (already decremented) level `s.orderElt`
(`compact.cpp`, lines 266–269, 317–321, 352–356). -/
def splitBoth (ctx : SearchCtx) (s : SearchState) : SearchState :=
  let face := ctx.order s.orderElt
  let adj := ctx.pairing face
  let p := ctx.indexToGluing face (s.permIndex face)
  let cs1 := splitVertexClasses ctx.ufFuel face adj p s.orderElt s.cs
  { s with cs := splitEdgeClasses ctx.ufFuel face s.orderElt cs1 }

/-- The orientation array after the fix of `compact.cpp`, lines 293–301:
when this gluing reaches tetrahedron `adj.tet` for the first time (in an
orientable-only search), fix its orientation sign from the permutation
parity. -/
def descendOri (ctx : SearchCtx) (face adj : TetFace) (s3 : SearchState) :
    Int → Int :=
  if adj.face = 0 ∧ ctx.orientableOnly then
    Function.update s3.orientation adj.tet
      (if (s3.permIndex face + (if face.face = 3 then 0 else 1) +
           (if adj.face = 3 then 0 else 1)) % 2 = 0
       then -(s3.orientation face.tet) else s3.orientation face.tet)
  else s3.orientation

/-- The state after the orientation fix and `orderElt++`
(`compact.cpp`, lines 293–304). -/
def descendState (ctx : SearchCtx) (face adj : TetFace) (s3 : SearchState) :
    SearchState :=
  { s3 with orientation := descendOri ctx face adj s3,
            orderElt := s3.orderElt + 1 }

/-- The state after emitting a complete triangulation and stepping back one
level (`compact.cpp`, lines 307–315). -/
def completeBack (ctx : SearchCtx) (face adj : TetFace) (s3 : SearchState) :
    SearchState :=
  { descendState ctx face adj s3 with orderElt := s3.orderElt }

/-- The permutation-index array after pre-setting the next face's index to
`-2`/`-1` when orientation tracking restricts its range (`compact.cpp`,
lines 327–340). -/
def prepPermIndex (ctx : SearchCtx) (face adj : TetFace) (s3 : SearchState) :
    TetFace → Int :=
  let face2 := ctx.order (s3.orderElt + 1)
  let adj2 := ctx.pairing face2
  let pi0 : Int :=
    if descendOri ctx face adj s3 face2.tet =
       descendOri ctx face adj s3 adj2.tet then 1 else 0
  let pi1 : Int :=
    if (if face2.face = 3 then (0 : Int) else 1) +
       (if adj2.face = 3 then (0 : Int) else 1) = 1
    then (pi0 + 1) % 2 else pi0
  if ctx.orientableOnly ∧ adj2.face > 0 then
    Function.update s3.permIndex face2 (pi1 - 2)
  else s3.permIndex

/-- The state one level deeper, next face prepared (`compact.cpp`,
lines 322–340). -/
def descendPrepared (ctx : SearchCtx) (face adj : TetFace)
    (s3 : SearchState) : SearchState :=
  { descendState ctx face adj s3 with
      permIndex := prepPermIndex ctx face adj s3 }

/-- The state after reporting a depth-bound partial search and stepping
back one level (`compact.cpp`, lines 342–356). -/
def partialBack (ctx : SearchCtx) (face adj : TetFace) (s3 : SearchState) :
    SearchState :=
  { descendPrepared ctx face adj s3 with
      permIndex := Function.update (prepPermIndex ctx face adj s3)
        (ctx.order (s3.orderElt + 1)) (-1),
      orderElt := s3.orderElt }

/-- The tail of a successful merge inside the search loop (`compact.cpp`,
lines 293–358): fix the orientation of a newly reached tetrahedron if
appropriate, advance the order position, then either test and emit a
complete triangulation, report a depth-bound partial search, or simply
descend with the next face prepared.  `s3` is the state with both merges
applied; the orientation fix never changes `orderElt`, so the advanced and
backtracked positions are written `s3.orderElt + 1` and `s3.orderElt`. -/
def stepDescend (ctx : SearchCtx) (minOrder maxOrder : Int)
    (face adj : TetFace) (s3 : SearchState) :
    SearchState × List (Option SearchState) :=
  if s3.orderElt + 1 = ctx.orderSize then
    ((if s3.orderElt ≥ minOrder
      then splitBoth ctx (completeBack ctx face adj s3)
      else completeBack ctx face adj s3),
     if ctx.isCanon s3.permIndex
     then [some (descendState ctx face adj s3)] else [])
  else if s3.orderElt + 1 = maxOrder then
    ((if s3.orderElt ≥ minOrder
      then splitBoth ctx (partialBack ctx face adj s3)
      else partialBack ctx face adj s3),
     [some (descendPrepared ctx face adj s3)])
  else (descendPrepared ctx face adj s3, [])

/-- One iteration of the `while (orderElt >= minOrder)` loop of
`NCompactSearcher::runSearch` (`compact.cpp`, lines 244–359).  Returns the
state at the end of the iteration together with the list of `use_`
callback invocations the iteration performed (`some st` is
`use_(this)` observed at state `st`). -/
def searchStep (ctx : SearchCtx) (minOrder maxOrder : Int) (s : SearchState) :
    SearchState × List (Option SearchState) :=
  let face := ctx.order s.orderElt
  let adj := ctx.pairing face
  -- Move to the next permutation, preserving orientation if necessary.
  let s1 : SearchState := { s with
    permIndex := Function.update s.permIndex face
      (s.permIndex face +
        (if (!ctx.orientableOnly) || adj.face = 0 then 1 else 2)) }
  if s1.permIndex face ≥ 6 then
    -- Out of ideas for this face: head back down to the previous face.
    let s2 : SearchState := { s1 with
      permIndex := Function.update (Function.update s1.permIndex face (-1))
        adj (-1),
      orderElt := s1.orderElt - 1 }
    if s2.orderElt ≥ minOrder then (splitBoth ctx s2, []) else (s2, [])
  else
    -- Sitting on a new permutation to try: install the mirror on adj.
    let s2 : SearchState := { s1 with
      permIndex := Function.update s1.permIndex adj
        (ctx.invS3 (s1.permIndex face)) }
    let p := ctx.indexToGluing face (s2.permIndex face)
    let em := mergeEdgeClasses ctx.ufFuel face adj p s2.orderElt s2.cs
    if em.2 then
      -- We created an invalid edge.
      ({ s2 with cs := splitEdgeClasses ctx.ufFuel face s2.orderElt em.1 }, [])
    else
      let vm := mergeVertexClasses ctx.ufFuel ctx.scanFuel face adj p
        s2.permIndex s2.orderElt em.1
      if vm.2.2 then
        -- Vertex link will never be a 2-sphere.
        let csv := splitVertexClasses ctx.ufFuel face adj p s2.orderElt vm.1
        ({ s2 with
             cs := splitEdgeClasses ctx.ufFuel face s2.orderElt csv }, [])
      else stepDescend ctx minOrder maxOrder face adj { s2 with cs := vm.1 }

/-- The search loop, driven by fuel.  `none` means the fuel ran out before
the loop condition `orderElt >= minOrder` failed; `some (sF, evs)` is the
final state together with all callback invocations made by the loop. -/
def searchLoop (ctx : SearchCtx) (minOrder maxOrder : Int) :
    Nat → SearchState → Option (SearchState × List (Option SearchState))
  | 0, _ => none
  | fuel + 1, s =>
    if s.orderElt ≥ minOrder then
      let r := searchStep ctx minOrder maxOrder s
      match searchLoop ctx minOrder maxOrder fuel r.1 with
      | none => none
      | some (sF, evF) => some (sF, r.2 ++ evF)
    else some (s, [])

/-- `NCompactSearcher::runSearch` (`compact.cpp`, lines 207–440): depth
defaulting, search initialisation, the two early-return paths, the main
loop, and the final `use_(0, ...)` sentinel (modelled as a trailing `none`
event).  The end-of-search sanity check (lines 363–437) only prints
diagnostics and changes no state, so it does not appear.  The result is
`none` exactly when the loop fuel was insufficient. -/
def runSearch (ctx : SearchCtx) (maxDepth : Int) (loopFuel : Nat)
    (s0 : SearchState) : Option (SearchState × List (Option SearchState)) :=
  let md := if maxDepth < 0 then (ctx.nTets : Int) * 4 + 1 else maxDepth
  if s0.started = false ∧
     (md = 0 ∨ (ctx.pairing ⟨0, 0⟩).isBoundary (ctx.nTets : Int)) then
    let s1 : SearchState := { s0 with started := true }
    some (s1, [some s1, none])
  else
    let s1 : SearchState :=
      if s0.started then s0
      else { s0 with started := true, orderElt := 0,
                     orientation := Function.update s0.orientation 0 1 }
    if s1.orderElt = ctx.orderSize then
      some (s1, (if ctx.isCanon s1.permIndex then [some s1] else []) ++ [none])
    else
      match searchLoop ctx s1.orderElt (s1.orderElt + md) loopFuel s1 with
      | none => none
      | some (sF, ev) => some (sF, ev ++ [none])

/-! ## The same-class case of `mergeVertexClasses` (claim C4) -/

/-- The transposition of 0 and 1, a concrete gluing permutation for facet
0 glued to facet 1 of the same tetrahedron. -/
def swap01 : Int → Int := fun v => if v = 0 then 1 else if v = 1 then 0 else v

/-! ## Exactness of the merge/split undo (claim C1) -/

/-- The acceptance behaviour of one search-loop iteration when the gluing
under trial is admissible apart from possibly closing a vertex link: the
permutation index is in range, the edge merge raises no invalid-edge flag,
and the vertex merge raises no non-sphere flag — with *no* constraint on
the closed-link flag.  Under these conditions the iteration takes the
descent path, and if the descent is neither complete nor at the depth
bound, it advances one level keeping the merged tracker and makes no
callback.  The `let` chain is transcribed from `searchStep`
(`compact.cpp`, lines 257–290). -/
def SearchAcceptSpec (ctx : SearchCtx) (minOrder maxOrder : Int)
    (s : SearchState) : Prop :=
  let face := ctx.order s.orderElt
  let adj := ctx.pairing face
  let s1 : SearchState := { s with
    permIndex := Function.update s.permIndex face
      (s.permIndex face +
        (if (!ctx.orientableOnly) || adj.face = 0 then 1 else 2)) }
  let s2 : SearchState := { s1 with
    permIndex := Function.update s1.permIndex adj
      (ctx.invS3 (s1.permIndex face)) }
  let p := ctx.indexToGluing face (s2.permIndex face)
  let em := mergeEdgeClasses ctx.ufFuel face adj p s2.orderElt s2.cs
  let vm := mergeVertexClasses ctx.ufFuel ctx.scanFuel face adj p
    s2.permIndex s2.orderElt em.1
  ¬ s1.permIndex face ≥ 6 →
  em.2 = false →
  vm.2.2 = false →
  searchStep ctx minOrder maxOrder s =
    stepDescend ctx minOrder maxOrder face adj { s2 with cs := vm.1 } ∧
  (s.orderElt + 1 ≠ ctx.orderSize → s.orderElt + 1 ≠ maxOrder →
    (searchStep ctx minOrder maxOrder s).1.orderElt = s.orderElt + 1 ∧
    (searchStep ctx minOrder maxOrder s).1.cs = vm.1 ∧
    (searchStep ctx minOrder maxOrder s).2 = [])

/-- A one-tetrahedron pairing gluing facet 0 to facet 1, the remaining two
facets being boundary (`tet = nTets = 1`). -/
def tinyPairing : TetFace → TetFace := fun f =>
  if f = ⟨0, 0⟩ then ⟨0, 1⟩ else if f = ⟨0, 1⟩ then ⟨0, 0⟩ else ⟨1, 0⟩

/-- A concrete one-tetrahedron search context with a single order entry. -/
def ctx1 : SearchCtx :=
  { nTets := 1, pairing := tinyPairing, order := fun _ => ⟨0, 0⟩,
    orderSize := 1, orientableOnly := false, isCanon := fun _ => true,
    indexToGluing := fun _ _ => swap01, invS3 := fun i => i,
    ufFuel := 12, scanFuel := 24 }

/-- The same context with a longer order array, for exercising
non-terminal search positions. -/
def ctx5 : SearchCtx := { ctx1 with orderSize := 5 }

/-- A freshly constructed searcher state. -/
def st0 : SearchState :=
  { cs := CompactState.init 1, permIndex := fun _ => -1,
    orientation := fun _ => 1, orderElt := 0, started := false }

/-- A mid-search state ready to complete the single order entry of `ctx1`. -/
def st0started : SearchState := { st0 with started := true }

/-- A tracker state in which corner `(0,2)` has only two boundary edges
left in its link, so that folding its remaining edges together closes the
vertex link off. -/
def c9CS : CompactState :=
  { CompactState.init 1 with
      vertexState := Function.update (CompactState.init 1).vertexState 2
        { (CompactState.init 1).vertexState 2 with bdry := 2 } }

/-- The search state around `c9CS`. -/
def c9St : SearchState := { st0 with cs := c9CS, started := true }

/-- A fresh state whose permutation indices start at 4, so that a full
search over `ctx1` tries exactly one gluing before exhausting the face. -/
def c10St : SearchState := { st0 with permIndex := fun _ => 4 }

/-- The edge `5 - edgeNumber v1 v2` merged by `mergeEdgeClasses` is the edge
opposite the face-edge `v1 v2`: its `edgeVertex` entries are the two vertices
of the tetrahedron distinct from both `v1` and `v2`, listed in increasing
order. -/
theorem oppositeEdge_vertices (v1 v2 : Int) (h1l : 0 ≤ v1) (h1u : v1 ≤ 3)
    (h2l : 0 ≤ v2) (h2u : v2 ≤ 3) (hne : v2 ≠ v1) :
    edgeVertex (5 - edgeNumber v1 v2) 0 < edgeVertex (5 - edgeNumber v1 v2) 1 ∧
    edgeVertex (5 - edgeNumber v1 v2) 0 ≠ v1 ∧
    edgeVertex (5 - edgeNumber v1 v2) 0 ≠ v2 ∧
    edgeVertex (5 - edgeNumber v1 v2) 1 ≠ v1 ∧
    edgeVertex (5 - edgeNumber v1 v2) 1 ≠ v2 ∧
    0 ≤ edgeVertex (5 - edgeNumber v1 v2) 0 ∧
    edgeVertex (5 - edgeNumber v1 v2) 1 ≤ 3 := by
  interval_cases v1 <;> interval_cases v2 <;> revert hne <;> decide

/-- C5: each edge pair processed by `mergeEdgeClasses` computes the
orientation twist as reversal of the edge's lesser-to-greater direction,
handles same-class merges by clearing `bounded` and flagging a twist
mismatch, and handles different-class merges by union-by-rank with size
accumulation. -/
theorem mergeEdgeClasses_pair_correct (fuel : Nat) (faceT adjT : TetFace)
    (p : Int → Int) (orderElt v2 : Int) (cs : CompactState)
    (h1l : 0 ≤ faceT.face) (h1u : faceT.face ≤ 3)
    (h2l : 0 ≤ v2) (h2u : v2 ≤ 3) (hne : v2 ≠ faceT.face) :
    MergeEdgePairSpec fuel faceT adjT p orderElt v2 cs := by
  have hopp := oppositeEdge_vertices faceT.face v2 h1l h1u h2l h2u hne
  simp only [MergeEdgePairSpec]
  refine ⟨⟨decide_eq_true_iff, hopp.1, hopp.2.1, hopp.2.2.1,
          hopp.2.2.2.1, hopp.2.2.2.2.1⟩, ?_, ?_⟩
  · -- same-class case
    intro heq
    simp only [mergeEdgePair]
    rw [if_pos heq]
    refine ⟨rfl, ?_, ?_, rfl, ?_, ?_⟩
    · simp [Function.update_same]
    · intro j hj
      simp [Function.update_noteq hj]
    · simp [Function.update_same]
    · intro j hj
      simp [Function.update_noteq hj]
  · -- different-class case
    intro hner
    have hner' := Ne.symm hner
    simp only [mergeEdgePair]
    rw [if_neg hner]
    by_cases hrank : (cs.edgeState
        (findEdgeClass cs.edgeState fuel
          (5 - edgeNumber faceT.face v2 + 6 * faceT.tet) false).1).rank <
        (cs.edgeState (findEdgeClass cs.edgeState fuel
          (5 - edgeNumber (p faceT.face) (p v2) + 6 * adjT.tet)
          (findEdgeClass cs.edgeState fuel
            (5 - edgeNumber faceT.face v2 + 6 * faceT.tet) false).2).1).rank
    · rw [if_pos hrank]
      refine ⟨rfl, rfl, fun _ => ?_, fun hc => absurd hrank hc⟩
      refine ⟨?_, ?_, ?_, ?_, ?_, ?_, ?_⟩
      · simp [Function.update_noteq hner, Function.update_same]
      · simp [Function.update_noteq hner, Function.update_same]
      · simp [Function.update_same]
      · simp [Function.update_same, Function.update_noteq hner]
      · simp [Function.update_same]
      · intro hr; omega
      · intro _
        constructor
        · simp [Function.update_same]
        · simp [Function.update_noteq hner, Function.update_same]
    · rw [if_neg hrank]
      refine ⟨rfl, rfl, fun hc => absurd hc hrank, fun _ => ?_⟩
      by_cases hr : (cs.edgeState
          (findEdgeClass cs.edgeState fuel
            (5 - edgeNumber faceT.face v2 + 6 * faceT.tet) false).1).rank =
          (cs.edgeState (findEdgeClass cs.edgeState fuel
            (5 - edgeNumber (p faceT.face) (p v2) + 6 * adjT.tet)
            (findEdgeClass cs.edgeState fuel
              (5 - edgeNumber faceT.face v2 + 6 * faceT.tet) false).2).1).rank
      · refine ⟨?_, ?_, ?_, ?_, ?_, ?_, ?_⟩
        · simp [Function.update_noteq hner', Function.update_same]
        · simp [Function.update_noteq hner', Function.update_same]
        · simp [Function.update_same, Function.update_noteq hner']
        · simp [Function.update_same, Function.update_noteq hner']
        · simp [Function.update_same]
        · intro _
          constructor
          · simp [Function.update_same, Function.update_noteq hner', if_pos hr]
          · simp [Function.update_noteq hner', Function.update_same, if_pos hr]
        · intro hcon; exact absurd hr.symm hcon
      · refine ⟨?_, ?_, ?_, ?_, ?_, ?_, ?_⟩
        · simp [Function.update_noteq hner', Function.update_same]
        · simp [Function.update_noteq hner', Function.update_same]
        · simp [Function.update_same, Function.update_noteq hner']
        · simp [Function.update_same, Function.update_noteq hner']
        · simp [Function.update_same]
        · intro hcon; exact absurd hcon.symm hr
        · intro _
          constructor
          · simp [Function.update_same, Function.update_noteq hner', if_neg hr]
          · simp [Function.update_noteq hner', Function.update_same, if_neg hr]

/-- Witness for C5: the theorem applied to a concrete gluing of facet 3 of
tetrahedron 0 to facet 2 on the all-singleton initial state. -/
theorem mergeEdgeClasses_pair_correct_witness :
    MergeEdgePairSpec 6 ⟨0, 3⟩ ⟨0, 2⟩
      (fun v => if v = 2 then 3 else if v = 3 then 2 else v) 0 0
      (CompactState.init 1) :=
  mergeEdgeClasses_pair_correct 6 ⟨0, 3⟩ ⟨0, 2⟩
    (fun v => if v = 2 then 3 else if v = 3 then 2 else v) 0 0
    (CompactState.init 1)
    (by decide) (by decide) (by decide) (by decide) (by decide)

/-- C6 (counterexample): the deserialiser does not validate the upper bound
of the backup field `bdryNextOld[0]` — `compact.cpp:115` tests `bdryNext[0]`
in its place — so a stream carrying the out-of-range value
`bdryNextOld[0] = 4 = nStates` is accepted and yields a reconstructed
searcher holding that out-of-range index, while the symmetric corruption of
`bdryNextOld[1]` is rejected as the claim describes. -/
theorem readCompactData_accepts_bad_bdryNextOldZero :
    (readCompactData 1 (c6Tokens 4 (-1))).isSome = true ∧
    (readCompactData 1 (c6Tokens 4 (-1))).map
      (fun st => (st.vertexState 0).bdryNextOld false) = some 4 ∧
    (readCompactData 1 (c6Tokens (-1) 4)).isSome = false := by
  refine ⟨?_, ?_, ?_⟩ <;> decide

theorem extendTriLoop_none (pairing : TetFace → TetFace)
    (order : Int → TetFace) (cpi : Int → Int)
    (maxOrder : Int) :
    ∀ (fuel : Nat) (st : ChainExtendState), st.orderElt < maxOrder →
      extendTriLoop pairing order cpi maxOrder fuel st = none := by
  intro fuel
  induction fuel with
  | zero => intro st _; rfl
  | succ n ih =>
    intro st h
    unfold extendTriLoop
    rw [if_pos h]
    dsimp only
    split_ifs with h1 h2
    · exact ih _ h
    · exact ih _ h
    · exact ih _ (by simp only []; omega)

/-- C3 (counterexample): whenever the collapser recorded at least one chain
link (`maxOrder ≥ 1`, and in fact `maxOrder = 2k ≥ 2` for a chain of length
`k`), the re-expansion loop of `extendTri` can never exit — its three
branches leave `orderElt` unchanged or decrement it, while the exit requires
`orderElt ≥ maxOrder` — and the loop body contains no invocation of the outer
callback, so no inner result is ever re-expanded and forwarded.  The number
of triangulations delivered through the chain-collapsing searcher is
therefore not the number found by the uncollapsed search. -/
theorem extendTri_delivers_nothing (pairing : TetFace → TetFace)
    (order : Int → TetFace)
    (cpi : Int → Int) (maxOrder : Int) (fuel : Nat) (pi0 : TetFace → Int)
    (h : 1 ≤ maxOrder) :
    extendTri pairing order cpi maxOrder fuel pi0 = none :=
  extendTriLoop_none pairing order cpi maxOrder fuel _ (by simp only []; omega)

/-- Witness for C3's theorem at a concrete configuration: a single chain
link (`maxOrder = 2`), everything else trivial. -/
theorem extendTri_delivers_nothing_witness :
    extendTri (fun _ => ⟨0, 0⟩) (fun _ => ⟨0, 0⟩) (fun _ => 0) 2 37
      (fun _ => -1) = none :=
  extendTri_delivers_nothing (fun _ => ⟨0, 0⟩) (fun _ => ⟨0, 0⟩)
    (fun _ => 0) 2 37 (fun _ => -1) (by decide)

theorem descendState_orderElt (ctx : SearchCtx) (face adj : TetFace)
    (s3 : SearchState) :
    (descendState ctx face adj s3).orderElt = s3.orderElt + 1 := rfl

theorem completeBack_orderElt (ctx : SearchCtx) (face adj : TetFace)
    (s3 : SearchState) :
    (completeBack ctx face adj s3).orderElt = s3.orderElt := rfl

theorem descendPrepared_orderElt (ctx : SearchCtx) (face adj : TetFace)
    (s3 : SearchState) :
    (descendPrepared ctx face adj s3).orderElt = s3.orderElt + 1 := rfl

theorem partialBack_orderElt (ctx : SearchCtx) (face adj : TetFace)
    (s3 : SearchState) :
    (partialBack ctx face adj s3).orderElt = s3.orderElt := rfl

theorem splitBoth_orderElt (ctx : SearchCtx) (s : SearchState) :
    (splitBoth ctx s).orderElt = s.orderElt := rfl

/-- Case analysis on the post-merge tail of an iteration; `oe` abbreviates
the order position at the head of the iteration. -/
theorem stepDescend_cases (ctx : SearchCtx) (minOrder maxOrder oe : Int)
    (face adj : TetFace) (s3 : SearchState) (hoe : s3.orderElt = oe) :
    ∀ r, stepDescend ctx minOrder maxOrder face adj s3 = r →
    ((∃ st, (r.2 = [] ∨ r.2 = [some st]) ∧
        st.orderElt = oe + 1 ∧ oe + 1 = ctx.orderSize ∧
        r.1.orderElt = oe) ∨
     (∃ st, r.2 = [some st] ∧
        st.orderElt = oe + 1 ∧ oe + 1 ≠ ctx.orderSize ∧
        oe + 1 = maxOrder ∧ r.1.orderElt = oe) ∨
     (r.2 = [] ∧ r.1.orderElt = oe + 1 ∧
      oe + 1 ≠ ctx.orderSize ∧ oe + 1 ≠ maxOrder)) := by
  subst hoe
  intro r hr
  simp only [stepDescend] at hr
  split_ifs at hr <;> subst hr <;>
    first
      | exact Or.inl ⟨_, Or.inr rfl, descendState_orderElt ctx face adj s3,
          by assumption, by rw [splitBoth_orderElt, completeBack_orderElt]⟩
      | exact Or.inl ⟨_, Or.inr rfl, descendState_orderElt ctx face adj s3,
          by assumption, completeBack_orderElt ctx face adj s3⟩
      | exact Or.inl ⟨descendState ctx face adj s3, Or.inl rfl,
          descendState_orderElt ctx face adj s3, by assumption,
          by rw [splitBoth_orderElt, completeBack_orderElt]⟩
      | exact Or.inl ⟨descendState ctx face adj s3, Or.inl rfl,
          descendState_orderElt ctx face adj s3, by assumption,
          completeBack_orderElt ctx face adj s3⟩
      | exact Or.inr (Or.inl ⟨_, rfl, descendPrepared_orderElt ctx face adj s3,
          by assumption, by assumption,
          by rw [splitBoth_orderElt, partialBack_orderElt]⟩)
      | exact Or.inr (Or.inl ⟨_, rfl, descendPrepared_orderElt ctx face adj s3,
          by assumption, by assumption, partialBack_orderElt ctx face adj s3⟩)
      | exact Or.inr (Or.inr ⟨rfl, descendPrepared_orderElt ctx face adj s3,
          by assumption, by assumption⟩)

set_option maxHeartbeats 1000000 in
/-- Case analysis on one search-loop iteration: it either backtracks or
retries (no events, order position does not increase), completes a
triangulation (emitting it exactly when canonical, then backtracking),
hits the depth bound (emitting the partial state, then backtracking), or
descends one level quietly. -/
theorem searchStep_cases (ctx : SearchCtx) (minOrder maxOrder : Int)
    (s : SearchState) :
    ∀ r, searchStep ctx minOrder maxOrder s = r →
    ((r.2 = [] ∧ r.1.orderElt ≤ s.orderElt) ∨
     (∃ st, (r.2 = [] ∨ r.2 = [some st]) ∧
        st.orderElt = s.orderElt + 1 ∧ s.orderElt + 1 = ctx.orderSize ∧
        r.1.orderElt = s.orderElt) ∨
     (∃ st, r.2 = [some st] ∧
        st.orderElt = s.orderElt + 1 ∧ s.orderElt + 1 ≠ ctx.orderSize ∧
        s.orderElt + 1 = maxOrder ∧ r.1.orderElt = s.orderElt) ∨
     (r.2 = [] ∧ r.1.orderElt = s.orderElt + 1 ∧
      s.orderElt + 1 ≠ ctx.orderSize ∧ s.orderElt + 1 ≠ maxOrder)) := by
  intro r hr
  simp only [searchStep] at hr
  split_ifs at hr <;> subst hr
  · exact Or.inl ⟨rfl, by rw [splitBoth_orderElt]; dsimp only; omega⟩
  · exact Or.inl ⟨rfl, by dsimp only; omega⟩
  · exact Or.inl ⟨rfl, by dsimp only; omega⟩
  · exact Or.inl ⟨rfl, by dsimp only; omega⟩
  · refine Or.inr (stepDescend_cases ctx minOrder maxOrder s.orderElt _ _ _
      ?_ _ rfl)
    rfl
  · exact Or.inl ⟨rfl, by rw [splitBoth_orderElt]; dsimp only; omega⟩
  · exact Or.inl ⟨rfl, by dsimp only; omega⟩
  · exact Or.inl ⟨rfl, by dsimp only; omega⟩
  · exact Or.inl ⟨rfl, by dsimp only; omega⟩
  · refine Or.inr (stepDescend_cases ctx minOrder maxOrder s.orderElt _ _ _
      ?_ _ rfl)
    rfl

/-- No iteration of the search loop ever passes a null pointer to the
callback: the trailing `use_(0, ...)` of `runSearch` is the only source of
a null event. -/
theorem searchLoop_no_none (ctx : SearchCtx) (minOrder maxOrder : Int) :
    ∀ (fuel : Nat) (s sF : SearchState) (ev : List (Option SearchState)),
      searchLoop ctx minOrder maxOrder fuel s = some (sF, ev) →
      ∀ e ∈ ev, e ≠ none := by
  intro fuel
  induction fuel with
  | zero => intro s sF ev h; exact Option.noConfusion h
  | succ n ih =>
    intro s sF ev h e he
    rw [searchLoop] at h
    by_cases hc : s.orderElt ≥ minOrder
    · rw [if_pos hc] at h
      dsimp only at h
      rcases hrec : searchLoop ctx minOrder maxOrder n
          (searchStep ctx minOrder maxOrder s).1 with _ | p
      · rw [hrec] at h; exact Option.noConfusion h
      · rcases p with ⟨p1, p2⟩
        rw [hrec] at h
        simp only [Option.some.injEq, Prod.mk.injEq] at h
        rw [← h.2] at he
        rcases List.mem_append.mp he with h1 | h2
        · rcases searchStep_cases ctx minOrder maxOrder s _ rfl with
            ⟨h2, _⟩ | ⟨st, hst, _⟩ | ⟨st, hst, _⟩ | ⟨h2, _⟩
          · rw [h2] at h1; exact absurd h1 (List.not_mem_nil e)
          · rcases hst with hst | hst
            · rw [hst] at h1; exact absurd h1 (List.not_mem_nil e)
            · rw [hst] at h1
              rcases List.mem_singleton.mp h1 with rfl
              exact Option.some_ne_none st
          · rw [hst] at h1
            rcases List.mem_singleton.mp h1 with rfl
            exact Option.some_ne_none st
          · rw [h2] at h1; exact absurd h1 (List.not_mem_nil e)
        · exact ih _ p1 p2 hrec e h2
    · rw [if_neg hc] at h
      simp only [Option.some.injEq, Prod.mk.injEq] at h
      rw [← h.2] at he
      exact absurd he (List.not_mem_nil e)

/-- When the depth bound strictly exceeds the length of the search order
and the loop starts at a position below `orderSize`, every event the loop
emits is a complete assignment (order position equal to `orderSize`): the
depth-bound branch is unreachable. -/
theorem searchLoop_only_complete (ctx : SearchCtx) (minOrder maxOrder : Int)
    (hmax : ctx.orderSize < maxOrder) :
    ∀ (fuel : Nat) (s sF : SearchState) (ev : List (Option SearchState)),
      s.orderElt ≤ ctx.orderSize - 1 →
      searchLoop ctx minOrder maxOrder fuel s = some (sF, ev) →
      ∀ e ∈ ev, ∃ st, e = some st ∧ st.orderElt = ctx.orderSize := by
  intro fuel
  induction fuel with
  | zero => intro s sF ev _ h; exact Option.noConfusion h
  | succ n ih =>
    intro s sF ev hord h e he
    rw [searchLoop] at h
    by_cases hc : s.orderElt ≥ minOrder
    · rw [if_pos hc] at h
      dsimp only at h
      rcases hrec : searchLoop ctx minOrder maxOrder n
          (searchStep ctx minOrder maxOrder s).1 with _ | p
      · rw [hrec] at h; exact Option.noConfusion h
      · rcases p with ⟨p1, p2⟩
        rw [hrec] at h
        simp only [Option.some.injEq, Prod.mk.injEq] at h
        rw [← h.2] at he
        have hcases := searchStep_cases ctx minOrder maxOrder s _ rfl
        rcases List.mem_append.mp he with h1 | h2
        · rcases hcases with
            ⟨h2, _⟩ | ⟨st, hst, hst1, hst2, _⟩ | ⟨st, _, _, _, hst3, _⟩ |
            ⟨h2, _⟩
          · rw [h2] at h1; exact absurd h1 (List.not_mem_nil e)
          · rcases hst with hst | hst
            · rw [hst] at h1; exact absurd h1 (List.not_mem_nil e)
            · rw [hst] at h1
              rcases List.mem_singleton.mp h1 with rfl
              exact ⟨st, rfl, by omega⟩
          · omega
          · rw [h2] at h1; exact absurd h1 (List.not_mem_nil e)
        · refine ih _ p1 p2 ?_ hrec e h2
          rcases hcases with
            ⟨_, ho⟩ | ⟨st, _, _, _, ho⟩ | ⟨st, _, _, _, _, ho⟩ | ⟨_, ho, hne, _⟩
          · omega
          · omega
          · omega
          · omega
    · rw [if_neg hc] at h
      simp only [Option.some.injEq, Prod.mk.injEq] at h
      rw [← h.2] at he
      exact absurd he (List.not_mem_nil e)

theorem descendPrepared_cs (ctx : SearchCtx) (face adj : TetFace)
    (s3 : SearchState) :
    (descendPrepared ctx face adj s3).cs = s3.cs := rfl

theorem update_bdry (vs : Int → TetVertexState) (n : Int)
    (st : TetVertexState) (x : Int) :
    (Function.update vs n st x).bdry = if x = n then st.bdry else (vs x).bdry := by
  by_cases hx : x = n
  · subst hx
    rw [Function.update_same, if_pos rfl]
  · rw [Function.update_noteq hx, if_neg hx]

theorem setBdryNext_bdry (st : TetVertexState) (e : Bool) (a : Int) :
    (st.setBdryNext e a).bdry = st.bdry := rfl

theorem setBdryTwist_bdry (st : TetVertexState) (e t : Bool) :
    (st.setBdryTwist e t).bdry = st.bdry := rfl

/-- `vtxBdryJoin` rewires boundary-cycle pointers only; no node's `bdry`
count changes. -/
theorem bdry_vtxBdryJoin (vs : Int → TetVertexState) (a : Int) (e : Bool)
    (b : Int) (t : Bool) (x : Int) :
    (vtxBdryJoin vs a e b t x).bdry = (vs x).bdry := by
  simp only [vtxBdryJoin, update_bdry, setBdryNext_bdry, setBdryTwist_bdry]
  split_ifs <;> simp_all

/-- `vtxBdryBackup` copies pointers into backup slots only; no node's
`bdry` count changes. -/
theorem bdry_vtxBdryBackup (vs : Int → TetVertexState) (v : Int) (x : Int) :
    (vtxBdryBackup vs v x).bdry = (vs x).bdry := by
  simp only [vtxBdryBackup, update_bdry]
  split_ifs <;> simp_all

theorem bdry_sameClassVs1 (cs : CompactState) (rp x : Int) :
    (sameClassVs1 cs rp x).bdry =
    if x = rp then (cs.vertexState rp).bdry - 2
    else (cs.vertexState x).bdry := by
  simp only [sameClassVs1, update_bdry]

theorem bdry_sameClassBdryState (cs : CompactState) (rp vIdx wIdx x : Int) :
    (sameClassBdryState cs rp vIdx wIdx x).bdry = (sameClassVs1 cs rp x).bdry := by
  simp only [sameClassBdryState,
    apply_ite (fun vs : Int → TetVertexState => ((vs x).bdry)),
    bdry_vtxBdryBackup, ite_self]

theorem bdry_mergeVxFoldSelf (vs1 : Int → TetVertexState) (h : Bool)
    (i x : Int) :
    (mergeVxFoldSelf vs1 h i x).bdry = (vs1 x).bdry := by
  simp only [mergeVxFoldSelf, update_bdry,
    apply_ite (fun vs : Int → TetVertexState => ((vs x).bdry)),
    apply_ite (fun vs : Int → TetVertexState => ((vs i).bdry)),
    bdry_vtxBdryJoin, ite_self]
  split_ifs <;> simp_all

theorem bdry_mergeVxBdryAdjust (scanFuel : Nat) (permIdx : TetFace → Int)
    (faceT adjT : TetFace) (v w : Int) (hasTwist : Bool) (vIdx wIdx : Int)
    (vs3 : Int → TetVertexState) (x : Int) :
    ((mergeVxBdryAdjust scanFuel permIdx faceT adjT v w hasTwist vIdx wIdx
      vs3).1 x).bdry = (vs3 x).bdry := by
  simp only [mergeVxBdryAdjust,
    apply_ite (fun r : (Int → TetVertexState) × Bool => ((r.1 x).bdry)),
    bdry_vtxBdryJoin, ite_self]

theorem mergeVxBdryAdjust_len1 (scanFuel : Nat) (permIdx : TetFace → Int)
    (faceT adjT : TetFace) (v w : Int) (hasTwist : Bool) (vIdx wIdx : Int)
    (vs3 : Int → TetVertexState)
    (h1 : vtxBdryLength1 vs3 vIdx = true)
    (h2 : vtxBdryLength1 vs3 wIdx = true) :
    (mergeVxBdryAdjust scanFuel permIdx faceT adjT v w hasTwist vIdx wIdx
      vs3).2 = true := by
  simp only [mergeVxBdryAdjust]
  rw [if_pos (And.intro h1 h2)]

theorem mergeVxBdryAdjust_scan (scanFuel : Nat) (permIdx : TetFace → Int)
    (faceT adjT : TetFace) (v w : Int) (hasTwist : Bool) (vIdx wIdx : Int)
    (vs3 : Int → TetVertexState)
    (hg1 : ¬ (vtxBdryLength1 vs3 vIdx = true ∧ vtxBdryLength1 vs3 wIdx = true))
    (hg2 : ¬ vtxBdryLength2 vs3 vIdx wIdx = true)
    (hg3 : ¬ ((vtxBdryNext vs3 permIdx vIdx faceT.tet v faceT.face).1 false =
          wIdx ∧
        (vtxBdryNext vs3 permIdx wIdx adjT.tet w adjT.face).1
          (!((vtxBdryNext vs3 permIdx vIdx faceT.tet v faceT.face).2 false)) =
          vIdx))
    (hg4 : ¬ ((vtxBdryNext vs3 permIdx vIdx faceT.tet v faceT.face).1 true =
          wIdx ∧
        (vtxBdryNext vs3 permIdx wIdx adjT.tet w adjT.face).1
          ((vtxBdryNext vs3 permIdx vIdx faceT.tet v faceT.face).2 true) =
          vIdx))
    (hscan : scanBdry vs3 vIdx wIdx scanFuel ((vs3 vIdx).bdryNext false)
      ((vs3 vIdx).bdryTwist false) = vIdx) :
    (mergeVxBdryAdjust scanFuel permIdx faceT adjT v w hasTwist vIdx wIdx
      vs3).2 = true := by
  simp only [mergeVxBdryAdjust]
  rw [if_neg hg1, if_neg hg2, if_neg hg3, if_neg hg4, if_pos hscan]

set_option maxHeartbeats 1000000 in
/-- C4: when the two corners glued by a `mergeVertexClasses` pair already
lie in the same union-find class, the routine (i) decrements the
representative's boundary count by exactly 2 and touches no other node's
count, (ii) reports `VLINK_CLOSED` precisely when the decremented count
reaches 0, (iii) reports `VLINK_NON_SPHERE` whenever `hasTwist` XOR the
accumulated parent twists is true, and (iv) also reports it when the two
corners lie on different boundary cycles of the partial link: both corners
being length-one cycles, or the cycle scan from the first corner returning
to it without meeting the second. -/
theorem mergeVertexClasses_same_class (ufFuel scanFuel : Nat)
    (faceT adjT : TetFace) (p : Int → Int) (permIdx : TetFace → Int)
    (orderElt v : Int) (cs : CompactState) (vr wr : Int × Bool)
    (bs : Int → TetVertexState)
    (hvr : findVertexClass cs.vertexState ufFuel (v + 4 * faceT.tet) false = vr)
    (hwr : findVertexClass cs.vertexState ufFuel (p v + 4 * adjT.tet) vr.2 = wr)
    (hsame : vr.1 = wr.1)
    (hbs : bs = sameClassBdryState cs vr.1 (v + 4 * faceT.tet)
      (p v + 4 * adjT.tet)) :
    (∀ x, ((mergeVertexPair ufFuel scanFuel faceT adjT p permIdx orderElt v
        cs).1.vertexState x).bdry =
      if x = vr.1 then (cs.vertexState x).bdry - 2
      else (cs.vertexState x).bdry) ∧
    ((mergeVertexPair ufFuel scanFuel faceT adjT p permIdx orderElt v
        cs).2.1 = true ↔ (cs.vertexState vr.1).bdry - 2 = 0) ∧
    (Bool.xor (mergeHasTwist p v (p v)) wr.2 = true →
      (mergeVertexPair ufFuel scanFuel faceT adjT p permIdx orderElt v
        cs).2.2 = true) ∧
    (v + 4 * faceT.tet ≠ p v + 4 * adjT.tet →
      vtxBdryLength1 bs (v + 4 * faceT.tet) = true →
      vtxBdryLength1 bs (p v + 4 * adjT.tet) = true →
      (mergeVertexPair ufFuel scanFuel faceT adjT p permIdx orderElt v
        cs).2.2 = true) ∧
    (v + 4 * faceT.tet ≠ p v + 4 * adjT.tet →
      ¬ (vtxBdryLength1 bs (v + 4 * faceT.tet) = true ∧
         vtxBdryLength1 bs (p v + 4 * adjT.tet) = true) →
      ¬ vtxBdryLength2 bs (v + 4 * faceT.tet) (p v + 4 * adjT.tet) = true →
      ¬ ((vtxBdryNext bs permIdx (v + 4 * faceT.tet) faceT.tet v
            faceT.face).1 false = p v + 4 * adjT.tet ∧
         (vtxBdryNext bs permIdx (p v + 4 * adjT.tet) adjT.tet (p v)
            adjT.face).1
           (!((vtxBdryNext bs permIdx (v + 4 * faceT.tet) faceT.tet v
            faceT.face).2 false)) = v + 4 * faceT.tet) →
      ¬ ((vtxBdryNext bs permIdx (v + 4 * faceT.tet) faceT.tet v
            faceT.face).1 true = p v + 4 * adjT.tet ∧
         (vtxBdryNext bs permIdx (p v + 4 * adjT.tet) adjT.tet (p v)
            adjT.face).1
           ((vtxBdryNext bs permIdx (v + 4 * faceT.tet) faceT.tet v
            faceT.face).2 true) = v + 4 * faceT.tet) →
      scanBdry bs (v + 4 * faceT.tet) (p v + 4 * adjT.tet) scanFuel
        ((bs (v + 4 * faceT.tet)).bdryNext false)
        ((bs (v + 4 * faceT.tet)).bdryTwist false) = v + 4 * faceT.tet →
      (mergeVertexPair ufFuel scanFuel faceT adjT p permIdx orderElt v
        cs).2.2 = true) := by
  subst hbs
  refine ⟨?_, ?_, ?_, ?_, ?_⟩
  · intro x
    simp only [mergeVertexPair]
    rw [hvr, hwr, if_pos hsame]
    simp only [apply_ite
        (fun t : CompactState × Bool × Bool => ((t.1.vertexState x).bdry)),
      update_bdry, bdry_mergeVxFoldSelf, bdry_mergeVxBdryAdjust,
      bdry_sameClassBdryState, bdry_sameClassVs1, ite_self]
    split_ifs <;> simp_all
  · simp only [mergeVertexPair]
    rw [hvr, hwr, if_pos hsame]
    simp only [apply_ite (fun t : CompactState × Bool × Bool => t.2.1),
      ite_self, bdry_sameClassVs1]
    simp [decide_eq_true_iff]
  · intro ht
    simp only [mergeVertexPair]
    rw [hvr, hwr, if_pos hsame]
    simp only [apply_ite (fun t : CompactState × Bool × Bool => t.2.2),
      ht, Bool.true_or, ite_self]
  · intro hne hl1 hl2
    simp only [mergeVertexPair]
    rw [hvr, hwr, if_pos hsame, if_neg hne]
    dsimp only
    rw [mergeVxBdryAdjust_len1 _ _ _ _ _ _ _ _ _ _ hl1 hl2, Bool.or_true]
  · intro hne hg1 hg2 hg3 hg4 hscan
    simp only [mergeVertexPair]
    rw [hvr, hwr, if_pos hsame, if_neg hne]
    dsimp only
    rw [mergeVxBdryAdjust_scan _ _ _ _ _ _ _ _ _ _ hg1 hg2 hg3 hg4 hscan,
      Bool.or_true]

/-- Witness for C4: folding together the two link edges of corner `(0,2)`
when face 0 is glued to face 1 of the same tetrahedron by the transposition
of 0 and 1; the corner is glued to itself, so the merge is a same-class
merge, the boundary count drops from 3 to 1, and no closed signal fires. -/
theorem mergeVertexClasses_same_class_witness :
    ((mergeVertexPair 6 12 ⟨0, 0⟩ ⟨0, 1⟩ swap01 (fun _ => -1) 0 2
        (CompactState.init 1)).1.vertexState 2).bdry =
      ((CompactState.init 1).vertexState 2).bdry - 2 ∧
    ((mergeVertexPair 6 12 ⟨0, 0⟩ ⟨0, 1⟩ swap01 (fun _ => -1) 0 2
        (CompactState.init 1)).2.1 = true ↔
      ((CompactState.init 1).vertexState 2).bdry - 2 = 0) := by
  have hvr : findVertexClass (CompactState.init 1).vertexState 6
      (2 + 4 * (⟨0, 0⟩ : TetFace).tet) false = ((2 : Int), false) := by decide
  have hwr : findVertexClass (CompactState.init 1).vertexState 6
      (swap01 2 + 4 * (⟨0, 1⟩ : TetFace).tet) ((2 : Int), false).2 =
      ((2 : Int), false) := by decide
  have h := mergeVertexClasses_same_class 6 12 ⟨0, 0⟩ ⟨0, 1⟩ swap01
    (fun _ => -1) 0 2 (CompactState.init 1) (2, false) (2, false)
    (sameClassBdryState (CompactState.init 1) ((2 : Int), false).1
      (2 + 4 * (⟨0, 0⟩ : TetFace).tet) (swap01 2 + 4 * (⟨0, 1⟩ : TetFace).tet))
    hvr hwr rfl rfl
  exact ⟨h.1 2, h.2.1⟩

/-- C9: a vertex link becoming closed (the `VLINK_CLOSED` condition) is
never by itself a reason to reject a gluing: `searchStep` consults only
the invalid-edge flag and the non-sphere flag, so whenever those two are
clear the iteration descends with the merged tracker regardless of the
closed-link flag. -/
theorem searchStep_closed_link_not_rejected (ctx : SearchCtx)
    (minOrder maxOrder : Int) (s : SearchState) :
    SearchAcceptSpec ctx minOrder maxOrder s := by
  simp only [SearchAcceptSpec]
  intro h6 hE hV
  refine ⟨?_, ?_⟩
  · simp only [searchStep]
    rw [if_neg h6, hE, hV, if_neg Bool.false_ne_true,
      if_neg Bool.false_ne_true]
  · intro hn1 hn2
    simp only [searchStep]
    rw [if_neg h6, hE, hV, if_neg Bool.false_ne_true,
      if_neg Bool.false_ne_true]
    simp only [stepDescend]
    dsimp only
    rw [if_neg hn1, if_neg hn2]
    dsimp only
    refine ⟨?_, ?_, rfl⟩
    · rw [descendPrepared_orderElt]
    · rw [descendPrepared_cs]

/-- C7: the callback discipline of `runSearch`: (i) every completed
invocation passes the null sentinel to the callback exactly once, as the
final event; (ii) when the order position reaches the end of the order
array, the complete assignment is tested for canonicity, emitted exactly
when canonical, and the searcher backtracks one level regardless;
(iii) when the order position reaches the depth bound without completing,
the partial assignment is emitted and the searcher backtracks. -/
theorem runSearch_callback_behaviour (ctx : SearchCtx) :
    (∀ (maxDepth : Int) (loopFuel : Nat) (s0 sF : SearchState)
       (ev : List (Option SearchState)),
       runSearch ctx maxDepth loopFuel s0 = some (sF, ev) →
       ∃ evs, ev = evs ++ [none] ∧ ∀ e ∈ evs, e ≠ none) ∧
    (∀ (minOrder maxOrder : Int) (face adj : TetFace) (s3 : SearchState),
       s3.orderElt + 1 = ctx.orderSize →
       (stepDescend ctx minOrder maxOrder face adj s3).2 =
         (if ctx.isCanon s3.permIndex
          then [some (descendState ctx face adj s3)] else []) ∧
       (descendState ctx face adj s3).orderElt = ctx.orderSize ∧
       (stepDescend ctx minOrder maxOrder face adj s3).1.orderElt =
         s3.orderElt) ∧
    (∀ (minOrder maxOrder : Int) (face adj : TetFace) (s3 : SearchState),
       s3.orderElt + 1 ≠ ctx.orderSize → s3.orderElt + 1 = maxOrder →
       (stepDescend ctx minOrder maxOrder face adj s3).2 =
         [some (descendPrepared ctx face adj s3)] ∧
       (stepDescend ctx minOrder maxOrder face adj s3).1.orderElt =
         s3.orderElt) := by
  refine ⟨?_, ?_, ?_⟩
  · intro maxDepth loopFuel s0 sF ev h
    have key : ∀ (L : List (Option SearchState)), (∀ e ∈ L, e ≠ none) →
        ∃ evs, L ++ [none] = evs ++ [none] ∧ ∀ e ∈ evs, e ≠ none :=
      fun L hL => ⟨L, rfl, hL⟩
    simp only [runSearch] at h
    split_ifs at h <;>
      first
      | (simp only [Option.some.injEq, Prod.mk.injEq] at h
         rw [← h.2]
         first
         | exact key [some _] (by simp)
         | exact key [] (by simp))
      | (split at h
         · exact Option.noConfusion h
         · rename_i sF' ev' heq
           simp only [Option.some.injEq, Prod.mk.injEq] at h
           rw [← h.2]
           exact key ev' (searchLoop_no_none _ _ _ _ _ _ _ heq))
  · intro minOrder maxOrder face adj s3 hc
    refine ⟨?_, ?_, ?_⟩
    · simp only [stepDescend]
      rw [if_pos hc]
    · rw [descendState_orderElt, hc]
    · simp only [stepDescend]
      rw [if_pos hc]
      by_cases hm : s3.orderElt ≥ minOrder
      · rw [if_pos hm]
        dsimp only
        rw [splitBoth_orderElt, completeBack_orderElt]
      · rw [if_neg hm]
        dsimp only
        rw [completeBack_orderElt]
  · intro minOrder maxOrder face adj s3 hn hb
    refine ⟨?_, ?_⟩
    · simp only [stepDescend]
      rw [if_neg hn, if_pos hb]
    · simp only [stepDescend]
      rw [if_neg hn, if_pos hb]
      by_cases hm : s3.orderElt ≥ minOrder
      · rw [if_pos hm]
        dsimp only
        rw [splitBoth_orderElt, partialBack_orderElt]
      · rw [if_neg hm]
        dsimp only
        rw [partialBack_orderElt]

/-- Witness for C7: the completion clause applied to the one-tetrahedron
context at its terminal order position. -/
theorem runSearch_callback_behaviour_witness :
    (stepDescend ctx1 0 9 ⟨0, 0⟩ ⟨0, 1⟩ st0started).2 =
      (if ctx1.isCanon st0started.permIndex
       then [some (descendState ctx1 ⟨0, 0⟩ ⟨0, 1⟩ st0started)] else []) ∧
    (descendState ctx1 ⟨0, 0⟩ ⟨0, 1⟩ st0started).orderElt = ctx1.orderSize ∧
    (stepDescend ctx1 0 9 ⟨0, 0⟩ ⟨0, 1⟩ st0started).1.orderElt =
      st0started.orderElt :=
  (runSearch_callback_behaviour ctx1).2.1 0 9 ⟨0, 0⟩ ⟨0, 1⟩ st0started
    (by decide)

/-- Witness for C9: in `c9St` the link of corner `(0,2)` has exactly two
boundary edges left, and gluing face 0 to face 1 by the transposition
`swap01` folds them together, closing the link (`bdry` drops to 0).  The
iteration nonetheless advances one level and makes no callback. -/
theorem searchStep_closed_link_not_rejected_witness :
    ((searchStep ctx5 0 9 c9St).1.cs.vertexState 2).bdry = 0 ∧
    (searchStep ctx5 0 9 c9St).1.orderElt = c9St.orderElt + 1 ∧
    (searchStep ctx5 0 9 c9St).2 = [] := by
  have h := searchStep_closed_link_not_rejected ctx5 0 9 c9St
  simp only [SearchAcceptSpec] at h
  have h2 := (h (by decide) (by decide) (by decide)).2 (by decide) (by decide)
  exact ⟨by decide, h2.1, h2.2.2⟩

/-- C10: with a negative `maxDepth` argument, `runSearch` substitutes the
depth bound `4 n + 1`, which exceeds the length of the order array; the
depth-bound branch — the only source of partial-triangulation callbacks —
is therefore unreachable, and every non-null callback carries a complete
gluing assignment (`orderElt = orderSize`).  The bound
`orderSize ≤ 2 n` is the order-array invariant of the base class
(at most one entry per matched facet pair). -/
theorem runSearch_negative_depth_only_complete (ctx : SearchCtx)
    (maxDepth : Int) (loopFuel : Nat) (s0 : SearchState)
    (hneg : maxDepth < 0)
    (hstart : s0.started = false)
    (hbd : (ctx.pairing ⟨0, 0⟩).isBoundary (ctx.nTets : Int) = false)
    (hos1 : 1 ≤ ctx.orderSize)
    (hos2 : ctx.orderSize ≤ 2 * (ctx.nTets : Int)) :
    ∀ sF ev, runSearch ctx maxDepth loopFuel s0 = some (sF, ev) →
      ∀ e ∈ ev, e = none ∨ ∃ st, e = some st ∧ st.orderElt = ctx.orderSize := by
  intro sF ev h e he
  simp only [runSearch] at h
  rw [if_pos hneg] at h
  have hcond : ¬ (s0.started = false ∧
      ((ctx.nTets : Int) * 4 + 1 = 0 ∨
       (ctx.pairing ⟨0, 0⟩).isBoundary (ctx.nTets : Int) = true)) := by
    rintro ⟨-, h0 | hb⟩
    · omega
    · rw [hbd] at hb
      exact Bool.noConfusion hb
  rw [if_neg hcond] at h
  have hst : ¬ s0.started = true := by
    rw [hstart]
    exact Bool.false_ne_true
  rw [if_neg hst] at h
  dsimp only at h
  have hne : ¬ (0 : Int) = ctx.orderSize := by omega
  rw [if_neg hne] at h
  split at h
  · exact Option.noConfusion h
  · rename_i sF' ev' heq
    simp only [Option.some.injEq, Prod.mk.injEq] at h
    rw [← h.2] at he
    rcases List.mem_append.mp he with hin | hin
    · right
      refine searchLoop_only_complete ctx 0 (0 + ((ctx.nTets : Int) * 4 + 1))
        (by omega) loopFuel _ sF' ev' ?_ heq e hin
      dsimp only
      omega
    · left
      rw [List.mem_singleton] at hin
      exact hin

set_option maxHeartbeats 4000000 in
/-- Witness for C10: the one-tetrahedron search context run to completion
with `maxDepth = -1`; the run succeeds and the conclusion applies to it. -/
theorem runSearch_negative_depth_only_complete_witness :
    (runSearch ctx1 (-1) 20 c10St).isSome = true ∧
    (∀ sF ev, runSearch ctx1 (-1) 20 c10St = some (sF, ev) →
      ∀ e ∈ ev, e = none ∨ ∃ st, e = some st ∧ st.orderElt = ctx1.orderSize) :=
  ⟨by decide, runSearch_negative_depth_only_complete ctx1 (-1) 20 c10St
    (by decide) (by decide) (by decide) (by decide) (by decide)⟩

end Regina
